import Mathlib

/-!
Verification of the fully-sharded data-parallel wrapper
(`fully_sharded_data_parallel.py`).

The wrapper class `_FullyShardedDataParallel` is embedded shallowly: its
mutable object state becomes the record `FSDPState`, its methods become
functions `FSDPState -> ...`.  The collaborator classes it uses
(`Chunk`, `ChunkManager`, `HeterogeneousMemoryManager`,
`HeterogeneousZeROHook`, the temp-chunk utility) live outside the file
under verification; their operations are modelled from the specification
and marked as such in their doc comments.  Machine tensors are modelled
as lists of rationals; collective summation across workers and
floating-point non-finiteness are external to the single-worker view and
are represented by the stored fields they feed (`has_inf_or_nan`).
Every operation appends to an event trace so that statements about which
actions were performed (and with which flags) can be expressed.
-/

set_option linter.unusedVariables false

namespace Oslo

/-- Device tiers: the fast device (cuda) and host memory (cpu). -/
inductive Device where
  | cuda
  | cpu
deriving DecidableEq, Repr

/-- Numeric precisions of the two parameter copies. -/
inductive Dtype where
  | f16
  | f32
deriving DecidableEq, Repr

/-- Readiness states of a tensor inside its chunk
(`TensorState` in the chunk module). -/
inductive TensorState where
  | FREE
  | HOLD
  | HOLD_AFTER_BWD
  | READY_FOR_REDUCE
  | COMPUTE
deriving DecidableEq, Repr

/-- A torch tensor: a shape, a dtype and flat data.
Values are rationals: no claim in question depends on rounding. -/
structure Tensor where
  shape : List Nat
  dtype : Dtype
  data : List Rat
deriving DecidableEq, Repr

/-- Number of elements of a tensor, the product of its shape. -/
def Tensor.numel (t : Tensor) : Nat := t.shape.prod

/-- Per-tensor bookkeeping held by a chunk: readiness state and the
slice [offset, end_off) of the chunk buffer holding the tensor. -/
structure TensorInfo where
  state : TensorState
  offset : Nat
  end_off : Nat
deriving DecidableEq, Repr

/-- Modelled from the spec (the Chunk class is outside the file under
verification): a fixed-capacity contiguous buffer holding several
tensors, sharded 1/W per worker.  `payload` is the full logical content
of the buffer from the local workers point of view; when the chunk is
not gathered only the slice [shard_begin, shard_end) is resident
locally (`cuda_shard` when `cuda_shard_present`, else `cpu_shard`).
`has_inf_or_nan` is the stored non-finite indicator computed by the
reduction collective; non-finiteness itself is a floating-point notion
outside the rational model, so the indicator is carried as data. -/
structure Chunk where
  tensors_info : List (Nat × TensorInfo)
  payload : List Rat
  is_gathered : Bool
  keep_gathered : Bool
  shard_begin : Nat
  shard_end : Nat
  cuda_shard_present : Bool
  pg_size : Nat
  has_inf_or_nan : Bool
  l2_norm_flag : Bool
  l2_norm : Option Rat
  device : Device
  paired_chunk : Option Nat
deriving DecidableEq, Repr

/-- Observable actions, newest first in the trace. -/
inductive Event where
  | trans_state (pid : Nat) (s : TensorState)
  | copy_slice (pid : Nat)
  | reduce_fired (cid : Nat)
  | move_chunk (cid : Nat) (d : Device) (force_copy : Bool)
  | release (cid : Nat)
  | fake_release (cid : Nat)
  | access (cid : Nat)
  | optim_update (cid : Nat)
  | pre_iter
  | post_iter
deriving DecidableEq, Repr

/-- Modelled from the spec: the ChunkManager state — the chunk registry
(a chunk is named by its index) and the accessed-chunk set. -/
structure ChunkMgr where
  chunks : List Chunk
  accessed_chunks : List Nat
deriving DecidableEq, Repr

/-- Transient per-iteration attributes of the memory manager
(timing and transfer-volume tracking), cleared by `reset_attributes`. -/
structure IterAttrs where
  comp_cuda_demand_time : Nat
  layout_time : Nat
  evict_time : Nat
  h2d_volume : Nat
  d2h_volume : Nat
deriving DecidableEq, Repr

/-- The cleared value of the transient attributes. -/
def IterAttrs.init : IterAttrs :=
  { comp_cuda_demand_time := 0, layout_time := 0, evict_time := 0
    h2d_volume := 0, d2h_volume := 0 }

/-- Modelled from the spec (the HeterogeneousMemoryManager class is
outside the file under verification): the warm-up flags and the
transient per-iteration attributes. -/
structure HeteroMgr where
  need_warmup : Bool
  warmup_done : Bool
  iter_attrs : IterAttrs
deriving DecidableEq, Repr

/-- Modelled from the spec: `is_warmup()` is true while the recorded
visitation-order table is still being built. -/
def HeteroMgr.is_warmup (h : HeteroMgr) : Bool := !h.warmup_done

/-- Modelled from the spec: `reset_attributes()` clears the transient
per-iteration tracking. -/
def HeteroMgr.reset_attributes (h : HeteroMgr) : HeteroMgr :=
  { h with iter_attrs := IterAttrs.init }

/-- Modelled from the spec: `post_iter()` closes the iteration; a
completed iteration ends the warm-up phase and clears the transient
per-iteration attributes. -/
def HeteroMgr.post_iter (h : HeteroMgr) : HeteroMgr :=
  { h with warmup_done := true, iter_attrs := IterAttrs.init }

/-- The object state of `_FullyShardedDataParallel`.  `uninit` is the
value uninitialized device memory happens to contain: it is what
`torch.empty_like` fills the result with in this model. -/
structure FSDPState where
  chunk_manager : ChunkMgr
  hetero : HeteroMgr
  overflow_counter : Nat
  grads_device : List (Nat × Device)
  param2name : List (Nat × String)
  name2param : List (String × Nat)
  fp16_params : List Nat
  fp32_params : List Nat
  module_params : List Nat
  ddp_ignored : List Nat
  reduced_label : List (Nat × Bool)
  grads : List (Nat × Option Tensor)
  param_data : List (Nat × Tensor)
  buffers : List (String × Tensor)
  rank : Nat
  training_phase_fwd : Bool
  uninit : Rat
  trace : List Event
deriving DecidableEq, Repr

/-- Result of a method call: either a normal return or a raised error.
The error also carries the object state at the moment of the raise,
since mutations made before a Python raise persist. -/
inductive Res (α : Type) where
  | ok (st : FSDPState) (val : α)
  | err (msg : String) (st : FSDPState)
deriving DecidableEq, Repr

/-- Replace the slice of `l` starting at `off` by `vals`. -/
def writeSlice (l : List Rat) (off : Nat) (vals : List Rat) : List Rat :=
  l.take off ++ vals ++ l.drop (off + vals.length)

/-- Read the slice [off, stop) of `l`. -/
def readSlice (l : List Rat) (off stop : Nat) : List Rat :=
  (l.drop off).take (stop - off)

/-- Elementwise division by the worker-group size. -/
def divAll (l : List Rat) (w : Nat) : List Rat :=
  l.map (fun x => x / (w : Rat))

/-- Divide only the slice [b, stop) of `l` by `w`. -/
def divSlice (l : List Rat) (b stop w : Nat) : List Rat :=
  writeSlice l b (divAll (readSlice l b stop) w)

/-- Sum of squares of a list: the recorded l2-norm statistic.  The model
records the squared norm (the norm itself is irrational in general and
is determined by the square). -/
def sumSq (l : List Rat) : Rat :=
  (l.map (fun x => x * x)).sum

/-- Update position `i` of a list when it exists. -/
def listUpd {α : Type} (l : List α) (i : Nat) (f : α → α) : List α :=
  match l[i]? with
  | some a => l.set i (f a)
  | none => l

/-- Append an event to the trace (newest first). -/
def logE (st : FSDPState) (e : Event) : FSDPState :=
  { st with trace := e :: st.trace }

/-- The chunk named `cid`, when it exists. -/
def chunkAt (st : FSDPState) (cid : Nat) : Option Chunk :=
  st.chunk_manager.chunks[cid]?

/-- Apply `f` to the chunk named `cid`. -/
def updChunk (st : FSDPState) (cid : Nat) (f : Chunk → Chunk) : FSDPState :=
  { st with chunk_manager :=
      { st.chunk_manager with
        chunks := listUpd st.chunk_manager.chunks cid f } }

/-- Modelled from the spec: `ChunkManager.get_chunk(tensor)` — the index
of the chunk owning parameter `p`. -/
def get_chunk (m : ChunkMgr) (p : Nat) : Option Nat :=
  m.chunks.findIdx? (fun c => c.tensors_info.any (fun kv => kv.1 == p))

/-- State recorded for parameter `p` in chunk `c`. -/
def Chunk.stateOf (c : Chunk) (p : Nat) : Option TensorState :=
  (List.lookup p c.tensors_info).map (fun ti => ti.state)

/-- The resident buffer of a chunk: the full payload when gathered, the
local shard slice otherwise. -/
def Chunk.resident (c : Chunk) : List Rat :=
  if c.is_gathered then c.payload
  else readSlice c.payload c.shard_begin c.shard_end

/-- Memory held by a chunk (element count of its buffer). -/
def Chunk.mem (c : Chunk) : Nat := c.payload.length

/-- Modelled from the spec: the manager-wide accessed-memory counter is
the memory of the chunks currently in the accessed set. -/
def accessed_mem (st : FSDPState) : Nat :=
  (st.chunk_manager.accessed_chunks.map (fun cid =>
    match chunkAt st cid with
    | some c => c.mem
    | none => 0)).sum

/-- Set the recorded state of parameter `p` inside a chunk. -/
def Chunk.setState (c : Chunk) (p : Nat) (s : TensorState) : Chunk :=
  { c with tensors_info := c.tensors_info.map (fun kv =>
      (kv.1, if kv.1 == p then { kv.2 with state := s } else kv.2)) }

/-- Modelled from the spec: `ChunkManager.trans_tensor_state` — record
the new state of `p` in its owning chunk.  The transitions issued by the
embedded code are all valid ones, so the validation table is not
modelled. -/
def trans_tensor_state (st : FSDPState) (p : Nat) (s : TensorState) : FSDPState :=
  match get_chunk st.chunk_manager p with
  | some cid => logE (updChunk st cid (fun c => c.setState p s)) (Event.trans_state p s)
  | none => st

/-- Modelled from the spec: `Chunk.copy_tensor_to_chunk_slice` — land a
freshly computed gradient in the slice of `p` inside chunk `cid`. -/
def copy_tensor_to_chunk_slice (st : FSDPState) (cid : Nat) (p : Nat)
    (grad : Tensor) : FSDPState :=
  let st := updChunk st cid (fun c =>
    match List.lookup p c.tensors_info with
    | some ti => { c with payload := writeSlice c.payload ti.offset grad.data }
    | none => c)
  logE st (Event.copy_slice p)

/-- The chunk after its reduction fired: every member tensor leaves the
reduction (HOLD), the chunk keeps only its shard unless
`keep_gathered`, and the reduced shard lands on the fast device. -/
def Chunk.reduced (c : Chunk) : Chunk :=
  { c with
    tensors_info := c.tensors_info.map (fun kv =>
      (kv.1, { kv.2 with state := TensorState.HOLD })),
    is_gathered := c.keep_gathered,
    cuda_shard_present := true }

/-- Modelled from the spec: `Chunk.reduce()` fires only once every
member tensor is READY_FOR_REDUCE; it is a no-op returning false until
then.  On firing, the cross-worker reduce-scatter summation is external
to the single-worker view (the payload stands for the local result). -/
def Chunk.reduce (c : Chunk) : Bool × Chunk :=
  if c.tensors_info.all (fun kv => kv.2.state == TensorState.READY_FOR_REDUCE) then
    (true, c.reduced)
  else (false, c)

/-- Drop a chunk from the manager-wide accessed set. -/
def remove_accessed (st : FSDPState) (cid : Nat) : FSDPState :=
  { st with chunk_manager :=
    { st.chunk_manager with
      accessed_chunks :=
        st.chunk_manager.accessed_chunks.filter (fun x => x ≠ cid) } }

/-- Modelled from the spec: `ChunkManager.reduce_chunk` delegates to
`Chunk.reduce` and, when the reduction fires, removes the chunk from
the accessed set. -/
def reduce_chunk (st : FSDPState) (cid : Nat) : Bool × FSDPState :=
  match chunkAt st cid with
  | none => (false, st)
  | some c =>
    let r := c.reduce
    if r.1 then
      (true, logE (remove_accessed (updChunk st cid (fun _ => r.2)) cid)
        (Event.reduce_fired cid))
    else (false, st)

/-- The state right after a fired reduction of chunk `cid` holding `c`:
the reduced chunk installed, the accessed-set entry dropped, the event
logged. -/
def after_reduce (st : FSDPState) (cid : Nat) (c : Chunk) : FSDPState :=
  logE (remove_accessed (updChunk st cid (fun _ => c.reduced)) cid)
    (Event.reduce_fired cid)

/-- The chunk with its full gathered buffer divided by the group size. -/
def Chunk.div_gathered (c : Chunk) : Chunk :=
  { c with payload := divAll c.payload c.pg_size }

/-- The chunk with only its shard slice divided by the group size. -/
def Chunk.div_shard (c : Chunk) : Chunk :=
  { c with payload := divSlice c.payload c.shard_begin c.shard_end c.pg_size }

/-- The chunk with the l2-norm statistic of its resident buffer
recorded. -/
def Chunk.with_l2 (c : Chunk) : Chunk :=
  { c with l2_norm := some (sumSq c.resident) }

/-- Modelled from the spec: `ChunkManager.move_chunk` relocates the
resident buffer of the chunk to `d`; `force_copy` forces a physical
copy even when the destination already holds identical data. -/
def move_chunk (st : FSDPState) (cid : Nat) (d : Device)
    (force_copy : Bool) : FSDPState :=
  logE (updChunk st cid (fun c => { c with device := d }))
    (Event.move_chunk cid d force_copy)

/-- Modelled from the spec: `Chunk.set_l2_norm()` records the l2-norm
statistic of the reduced gradient (stored squared, see `sumSq`). -/
def set_l2_norm (st : FSDPState) (cid : Nat) : FSDPState :=
  updChunk st cid (fun c => { c with l2_norm := some (sumSq c.resident) })

/-- `torch.empty_like(grad)`: same shape and dtype, uninitialized
contents — modelled as a fill with the ambient `uninit` value. -/
def empty_like (st : FSDPState) (grad : Tensor) : Tensor :=
  { shape := grad.shape, dtype := grad.dtype
    data := List.replicate grad.numel st.uninit }

/-- Modelled from the spec: the access-hook `post_backward([p])` — when
the engine finishes with `p` in the backward phase the hook drives the
COMPUTE -> HOLD_AFTER_BWD transition; a tensor that never entered
COMPUTE (an unsupported compute path) keeps its state, which
`grad_handle` then detects and reports. -/
def hook_post_backward (st : FSDPState) (p : Nat) : FSDPState :=
  match get_chunk st.chunk_manager p with
  | none => st
  | some cid =>
    match chunkAt st cid with
    | none => st
    | some c =>
      if c.stateOf p = some TensorState.COMPUTE then
        trans_tensor_state st p TensorState.HOLD_AFTER_BWD
      else st

/-- The message of the gradient-reduction failure raised by
`grad_handle` for an unsupported compute path. -/
def gradHandleFailMsg (name : String) : String :=
  "Parameter `" ++ name ++ "` failed at the gradient reduction. " ++
  "Some unsupported torch function is operated upon this parameter."

/-- Divide the resident buffer of chunk `cid` by its worker-group size:
`cuda_global_chunk.div_(pg_size)` when gathered, else
`cuda_shard.div_(pg_size)`. -/
def div_resident (st : FSDPState) (cid : Nat) : FSDPState :=
  updChunk st cid (fun c =>
    if c.is_gathered then { c with payload := divAll c.payload c.pg_size }
    else { c with payload := divSlice c.payload c.shard_begin c.shard_end c.pg_size })

/-- `self.overflow_counter += chunk.has_inf_or_nan` (bool-to-int). -/
def add_overflow (st : FSDPState) (cid : Nat) : FSDPState :=
  match chunkAt st cid with
  | some c =>
    { st with overflow_counter := st.overflow_counter + (if c.has_inf_or_nan then 1 else 0) }
  | none => st

/-- `chunk.set_l2_norm()` guarded by `chunk.l2_norm_flag` — source
lines 252-254 (part of the grad_handle tail below). -/
def l2_step (st : FSDPState) (cid : Nat) : FSDPState :=
  match chunkAt st cid with
  | some c2 => if c2.l2_norm_flag then set_l2_norm st cid else st
  | none => st

/-- The tail of `grad_handle` continued: reduction trigger and on-fire
effects (see `grad_handle`). -/
def grad_handle_tail (st : FSDPState) (cid p : Nat) (eg : Tensor) : Res Tensor :=
  let r := reduce_chunk st cid
  if r.1 then
    let st5 := div_resident r.2 cid
    let st6 := add_overflow st5 cid
    let st7 := l2_step st6 cid
    match List.lookup p st7.grads_device with
    | none => Res.err "KeyError: grads_device" st7
    | some d => Res.ok (move_chunk st7 cid d true) eg
  else Res.ok r.2 eg

/-- `grad_handle(p, grad)` — source lines 232-256: notify the hook,
allocate the placeholder with `torch.empty_like`, check the recorded
state (raising for an unsupported compute path), transition to
READY_FOR_REDUCE, land the gradient in the chunk slice, and continue
with `grad_handle_tail`. -/
def grad_handle (st : FSDPState) (p : Nat) (grad : Tensor) : Res Tensor :=
  let st1 := hook_post_backward st p
  let eg := empty_like st1 grad
  match get_chunk st1.chunk_manager p with
  | none => Res.err "KeyError: no chunk owns the tensor" st1
  | some cid =>
    match chunkAt st1 cid with
    | none => Res.err "KeyError: no chunk owns the tensor" st1
    | some c =>
      match c.stateOf p with
      | none => Res.err "KeyError: tensor not in tensors_info" st1
      | some s =>
        if s ≠ TensorState.HOLD_AFTER_BWD then
          match List.lookup p st1.param2name with
          | none => Res.err "KeyError: param2name" st1
          | some name => Res.err (gradHandleFailMsg name) st1
        else
          grad_handle_tail
            (copy_tensor_to_chunk_slice
              (trans_tensor_state st1 p TensorState.READY_FOR_REDUCE) cid p grad)
            cid p eg

/-- `is_ddp_ignored(p)`: membership in the ignored-parameter set. -/
def is_ddp_ignored (st : FSDPState) (p : Nat) : Bool :=
  st.ddp_ignored.contains p

/-- `torch.nn.Module.zero_grad(set_to_none)` of the wrapped module:
for every parameter holding a gradient, either drop the gradient
(`set_to_none=True`) or zero-fill it in place. -/
def module_zero_grad (st : FSDPState) (set_to_none : Bool) : FSDPState :=
  { st with grads := st.grads.map (fun kv =>
      (kv.1,
        match kv.2 with
        | none => none
        | some g =>
          if set_to_none then none
          else some { g with data := List.replicate g.data.length 0 })) }

/-- `zero_grad(set_to_none)` — source lines 258-259: delegates to the
wrapped module with `set_to_none=True`, whatever was passed. -/
def zero_grad (st : FSDPState) (set_to_none : Bool) : FSDPState :=
  module_zero_grad st true

/-- `param_op_hook.toggle_training_phase()`. -/
def toggle_training_phase (st : FSDPState) : FSDPState :=
  { st with training_phase_fwd := !st.training_phase_fwd }

/-- `_setup_grads_ptr()` — source lines 191-195: drop the gradient
pointer of every non-ignored module parameter. -/
def setup_grads_ptr (st : FSDPState) : FSDPState :=
  { st with grads := st.grads.map (fun kv =>
      (kv.1, if is_ddp_ignored st kv.1 then kv.2 else none)) }

/-- A Python attribute or dict write on an association list: the new
binding is prepended and shadows any older one (`List.lookup` reads
the newest binding first). -/
def upsert {κ β : Type} [BEq κ] (l : List (κ × β)) (k : κ) (v : β) :
    List (κ × β) :=
  (k, v) :: l

/-- Modelled from the spec: the access-hook `pre_backward` — backward
prefetch bookkeeping; it gathers nothing by itself (each touch is
driven by the engine) and no claim depends on it. -/
def hook_pre_backward (st : FSDPState) (ps : List Nat) : FSDPState := st

/-- `_pre_backward()` — source lines 197-207: switch the hook to the
backward phase, set the reduced-visit label of every non-ignored
parameter to false, and notify the hook. -/
def _pre_backward (st : FSDPState) : FSDPState :=
  let st1 := toggle_training_phase st
  let st2 := { st1 with reduced_label :=
    (st1.param2name.foldl (fun acc kv =>
      if is_ddp_ignored st1 kv.1 then acc else upsert acc kv.1 false)
      st1.reduced_label) }
  hook_pre_backward st2 st2.fp16_params

/-- The reduced-visit label of a parameter
(`getattr(param, "_heterogeneous_reduced")`); `_pre_backward`
initializes the label of every non-ignored parameter before any read,
so the default is never observable. -/
def reduced_flag (st : FSDPState) (p : Nat) : Bool :=
  (List.lookup p st.reduced_label).getD false

/-- The non-ignored parameters whose reduced-visit label is still
false, with their names, in `param2name` order. -/
def unreduced_named (st : FSDPState) : List (Nat × String) :=
  st.param2name.filter (fun kv =>
    !is_ddp_ignored st kv.1 && !reduced_flag st kv.1)

/-- The message of the incomplete-reduction failure raised by
`_post_backward`: the concatenated RuntimeError arguments followed by
the header line and one name per never-reduced parameter. -/
def post_backward_fail_msg (st : FSDPState) : String :=
  "ZERO DDP error: the synchronization of gradients doesn\x27t exit properly. " ++
  "The most possible reason is that the model is not compatible with ZeroDDP.\n" ++
  String.intercalate "\n\t"
    ("Reduction failed at followed parameters:" ::
      (unreduced_named st).map (fun kv => kv.2))

/-- `_post_backward()` — source lines 209-230: switch the hook back to
the forward phase; when the accessed-memory counter is not zero, raise
the incomplete-reduction error naming every never-reduced parameter;
otherwise clear the gradient pointers and close the iteration through
`post_iter`. -/
def _post_backward (st : FSDPState) : Res Unit :=
  let st1 := toggle_training_phase st
  if accessed_mem st1 ≠ 0 then Res.err (post_backward_fail_msg st1) st1
  else
    let st2 := setup_grads_ptr st1
    let st3 := { st2 with hetero := st2.hetero.post_iter }
    Res.ok (logE st3 Event.post_iter) ()

/-- Modelled from the spec: `ChunkManager.access_chunk` — gather the
chunk and record it in the accessed set (no-op when already
accessed). -/
def access_chunk (st : FSDPState) (cid : Nat) : FSDPState :=
  if st.chunk_manager.accessed_chunks.contains cid then st
  else
    let st1 := updChunk st cid (fun c => { c with is_gathered := true })
    logE { st1 with chunk_manager :=
      { st1.chunk_manager with
        accessed_chunks := cid :: st1.chunk_manager.accessed_chunks } }
      (Event.access cid)

/-- Modelled from the spec: `ChunkManager.release_chunk` — discard the
full buffer keeping only the local shard, and remove the chunk from
the accessed set. -/
def release_chunk (st : FSDPState) (cid : Nat) : FSDPState :=
  logE (remove_accessed (updChunk st cid (fun c => { c with is_gathered := false })) cid)
    (Event.release cid)

/-- Modelled from the spec: `ChunkManager.fake_release_chunk` — release
bookkeeping for a keep-gathered chunk: the buffer is not freed, only
the accessed-set entry is dropped. -/
def fake_release_chunk (st : FSDPState) (cid : Nat) : FSDPState :=
  logE (remove_accessed st cid) (Event.fake_release cid)

/-- Modelled from the spec: `Chunk.can_release` — true when no member
tensor is mid-reduction or in use by the engine. -/
def can_release (c : Chunk) : Bool :=
  c.tensors_info.all (fun kv =>
    kv.2.state == TensorState.FREE || kv.2.state == TensorState.HOLD ||
    kv.2.state == TensorState.HOLD_AFTER_BWD)

/-- The move performed for each chunk at the end of `_post_forward`:
to the gradient device configured for the first member tensor, with
the default `force_copy=False`. -/
def post_forward_move (st : FSDPState) (cid : Nat) (c : Chunk) : Res Unit :=
  match c.tensors_info.head? with
  | none => Res.err "StopIteration: chunk has no tensors" st
  | some kv =>
    match List.lookup kv.1 st.grads_device with
    | none => Res.err "KeyError: grads_device" st
    | some d => Res.ok (move_chunk st cid d false) ()

/-- One iteration of the `_post_forward` scatter loop — source lines
156-163: fake-release a keep-gathered chunk, otherwise assert
releasability and physically release, then move the chunk to the
configured device of its first tensor. -/
def post_forward_step (st : FSDPState) (cid : Nat) : Res Unit :=
  match chunkAt st cid with
  | none => Res.err "KeyError: chunk" st
  | some c =>
    if c.keep_gathered then post_forward_move (fake_release_chunk st cid) cid c
    else if can_release c then post_forward_move (release_chunk st cid) cid c
    else Res.err "AssertionError: chunk.can_release" st

/-- The `_post_forward` loop over the snapshot of the accessed set. -/
def post_forward_loop (st : FSDPState) : List Nat → Res Unit
  | [] => Res.ok st ()
  | cid :: rest =>
    match post_forward_step st cid with
    | Res.ok st1 _ => post_forward_loop st1 rest
    | Res.err m s => Res.err m s

/-- `_post_forward()` — source lines 152-166: scatter every accessed
chunk back to its configured device, assert that the accessed-memory
counter returned to zero, and reset the transient attributes of the
memory manager. -/
def _post_forward (st : FSDPState) : Res Unit :=
  match post_forward_loop st st.chunk_manager.accessed_chunks with
  | Res.err m s => Res.err m s
  | Res.ok st1 _ =>
    if accessed_mem st1 ≠ 0 then
      Res.err "AssertionError: accessed_mem == 0" st1
    else Res.ok { st1 with hetero := st1.hetero.reset_attributes } ()

/-- Modelled from the spec: `pre_iter` brackets the step (warm-up
observation leaves no observable the claims depend on). -/
def pre_iter (st : FSDPState) : FSDPState := logE st Event.pre_iter

/-- Modelled from the spec: the access-hook `pre_forward` — make sure
the chunk of every listed parameter is gathered and recorded in the
accessed set. -/
def hook_pre_forward (st : FSDPState) (ps : List Nat) : FSDPState :=
  ps.foldl (fun s p =>
    match get_chunk s.chunk_manager p with
    | some cid => access_chunk s cid
    | none => s) st

/-- Modelled from the spec: the access-hook `post_forward` — the hook
moves every listed parameter out of COMPUTE when the engine is done
with it (to HOLD in the forward phase). -/
def hook_post_forward (st : FSDPState) (ps : List Nat) : FSDPState :=
  ps.foldl (fun s p =>
    match get_chunk s.chunk_manager p with
    | none => s
    | some cid =>
      match chunkAt s cid with
      | none => s
      | some c =>
        if c.stateOf p = some TensorState.COMPUTE then
          trans_tensor_state s p TensorState.HOLD
        else s) st

/-- The warm-up assertion message of `forward`. -/
def warmup_assert_msg : String :=
  "You should run a completed iteration as your warmup iter"

/-- `forward(*args, **kwargs)` — source lines 168-189.  The external
compute engine is the explicit argument `engine`; the value-level
argument/output casting (`_cast_float`) concerns data the claims do
not touch and is not modelled.  In inference mode (`grad_flag` false)
the warm-up assertion is checked before anything else and
`_post_forward` runs after the engine returns.  `forward_inner` is the
shared middle part: iteration bracket, pre-forward hook, engine call,
post-forward hook. -/
def forward_inner (st : FSDPState) (engine : FSDPState → FSDPState) : FSDPState :=
  let st1 := pre_iter st
  let st2 := hook_pre_forward st1 st1.fp16_params
  let st3 := engine st2
  hook_post_forward st3 st3.fp16_params

/-- `forward` proper: warm-up assertion, `forward_inner`, and the
inference-mode scatter through `_post_forward`. -/
def forward (st : FSDPState) (grad_flag : Bool)
    (engine : FSDPState → FSDPState) : Res Unit :=
  if !grad_flag && st.hetero.need_warmup && st.hetero.is_warmup then
    Res.err warmup_assert_msg st
  else
    let st4 := forward_inner st engine
    if !grad_flag then
      match _post_forward st4 with
      | Res.err m s => Res.err m s
      | Res.ok st5 _ => Res.ok st5 ()
    else Res.ok st4 ()

/-- Modelled from the spec: `ChunkManager.get_chunks(tensor_list)` —
the owning chunks of the listed tensors, deduplicated, in first-seen
order. -/
def get_chunks (m : ChunkMgr) (ps : List Nat) : List Nat :=
  ps.foldl (fun acc p =>
    match get_chunk m p with
    | some cid => if acc.contains cid then acc else acc ++ [cid]
    | none => acc) []

/-- The current value tensor of a parameter (`p.data`); total lookup
with an empty default, used only where the source indexes a mapping
that is total in well-formed states. -/
def paramTensor (st : FSDPState) (p : Nat) : Tensor :=
  (List.lookup p st.param_data).getD { shape := [], dtype := Dtype.f32, data := [] }

/-- `_get_param_to_save_data(param_list, only_rank_0)` — source lines
296-329: for every chunk of the listed parameters, reconstruct the
full unsharded content (`get_temp_total_chunk_on_cuda`, modelled as
the full payload) and slice out each member tensor, viewed in its
shape; a rank other than 0 records an empty tensor when
`only_rank_0`. -/
def param_save_data (st : FSDPState) (ps : List Nat) (only_rank_0 : Bool) :
    List (Nat × Tensor) :=
  (get_chunks st.chunk_manager ps).foldl (fun acc cid =>
    match chunkAt st cid with
    | none => acc
    | some c => acc ++ c.tensors_info.map (fun kv =>
        let record_flag := !only_rank_0 || st.rank == 0
        (kv.1,
          if record_flag then
            { shape := (paramTensor st kv.1).shape, dtype := Dtype.f32
              data := readSlice c.payload kv.2.offset kv.2.end_off }
          else { shape := [0], dtype := Dtype.f32, data := [] })) ) []

/-- The assertion message rejecting `keep_vars=True` at save time. -/
def keep_vars_assert_msg : String :=
  "`state_dict` with parameter, `keep_vars=True`, is not supported now."

/-- The mapping loop of `_save_to_state_dict` — source lines 351-358:
pair every fp16 parameter with the recorded copy of its fp32 twin,
asserting that the twin was found in the chunk list. -/
def p_mapping_loop (st : FSDPState) (data : List (Nat × Tensor)) :
    List (Nat × Nat) → Res (List (Nat × Tensor))
  | [] => Res.ok st []
  | pf :: rest =>
    match List.lookup pf.2 data with
    | none =>
      Res.err ("Parameter \x27" ++ ((List.lookup pf.1 st.param2name).getD "") ++
        "\x27 is neglected in the chunk list") st
    | some t =>
      match p_mapping_loop st data rest with
      | Res.ok s m => Res.ok s ((pf.1, t) :: m)
      | Res.err e s => Res.err e s

/-- The destination loop of `_save_to_state_dict` — source lines
359-366: ignored parameters are stored directly (detached), the rest
through the fp32 copy mapping. -/
def save_dest_params (st : FSDPState) (pmap : List (Nat × Tensor))
    (pre : String) : Res (List (String × Tensor)) :=
  match (st.name2param.foldl (fun acc nv =>
      match acc with
      | none => none
      | some l =>
        if is_ddp_ignored st nv.2 then
          some (l ++ [(pre ++ nv.1, paramTensor st nv.2)])
        else
          match List.lookup nv.2 pmap with
          | some t => some (l ++ [(pre ++ nv.1, t)])
          | none => none) (some [])) with
  | some l => Res.ok st l
  | none => Res.err "KeyError: p_mapping" st

/-- `_save_to_state_dict(destination, prefix, keep_vars, only_rank_0)`
— source lines 331-379: reject `keep_vars=True` up front, then write
every named parameter (from the gathered fp32 chunks) and every
persistent buffer into the destination mapping.  The extra-state hook
is not overridden by the class and contributes nothing. -/
def _save_to_state_dict (st : FSDPState) (destination : List (String × Tensor))
    (pre : String) (keep_vars : Bool) (only_rank_0 : Bool) :
    Res (List (String × Tensor)) :=
  if keep_vars then Res.err keep_vars_assert_msg st
  else
    let data := param_save_data st st.fp32_params only_rank_0
    match p_mapping_loop st data (st.fp16_params.zip st.fp32_params) with
    | Res.err m s => Res.err m s
    | Res.ok st1 pmap =>
      match save_dest_params st1 pmap pre with
      | Res.err m s => Res.err m s
      | Res.ok st2 entries =>
        Res.ok st2 (destination ++ entries ++
          st.buffers.map (fun kv => (pre ++ kv.1, kv.2)))

/-- `state_dict(destination, prefix, keep_vars, only_rank_0)` — source
lines 265-294: build a fresh ordered destination (the version metadata
carries no tensor content and is not modelled), fill it through
`_save_to_state_dict`, and return it (no state-dict hooks are
registered). -/
def state_dict (st : FSDPState) (pre : String) (keep_vars : Bool)
    (only_rank_0 : Bool) : Res (List (String × Tensor)) :=
  _save_to_state_dict st [] pre keep_vars only_rank_0

/-- `input_param[0]` on a 1-dimensional stored tensor: the scalar view
of its first element (the out-of-range case of an empty stored tensor
is not modelled; no claim exercises it). -/
def Tensor.atZero (t : Tensor) : Tensor :=
  { shape := [], dtype := t.dtype, data := t.data.take 1 }

/-- The rendered shape-mismatch message of the `load` closure — source
lines 524-529: names the key, the checkpoint shape and the model
shape. -/
def size_mismatch_msg (key : String) (ckpt model : List Nat) : String :=
  "size mismatch for " ++ key ++ ": copying a param with shape " ++
  toString ckpt ++ " from checkpoint, the shape in current model is " ++
  toString model ++ "."

/-- The `load` closure of `_load_from_state_dict` — source lines
515-544: when the key is present, apply the 0-dim/1-dim backward
compatibility adjustment, accumulate a shape-mismatch message instead
of copying when the shapes disagree, and otherwise hand the (possibly
adjusted) stored tensor to the copy function; a key absent under
strict is recorded as missing.  The result is the updated missing
list, the updated error list, and the tensor to copy when the entry
validated.  (The copy functions of the model are total, so the
exception branch of the source is unreachable here.) -/
def load_entry (sd : List (String × Tensor)) (pre name : String)
    (dest_shape : List Nat) (strict : Bool)
    (missing errors : List String) :
    List String × List String × Option Tensor :=
  let state_key := pre ++ name
  match List.lookup state_key sd with
  | some input0 =>
    let input_param :=
      if dest_shape.length == 0 && input0.shape.length == 1
      then input0.atZero else input0
    if input_param.shape ≠ dest_shape then
      (missing,
       errors ++ [size_mismatch_msg state_key input_param.shape dest_shape],
       none)
    else (missing, errors, some input_param)
  | none =>
    if strict then (missing ++ [state_key], errors, none)
    else (missing, errors, none)

/-- Accumulator threaded through the loops of `_load_from_state_dict`:
the object state and the three reporting lists. -/
structure LoadAcc where
  st : FSDPState
  missing : List String
  unexpected : List String
  errors : List String
deriving DecidableEq, Repr

/-- The ignored-parameter loop of `_load_from_state_dict` — source
lines 549-552: only ddp-ignored parameters are loaded directly
(`param.copy_`); the rest go through the fp32 chunks below. -/
def load_ignored_params (sd : List (String × Tensor)) (pre : String)
    (strict : Bool) (acc : LoadAcc) : LoadAcc :=
  acc.st.name2param.foldl (fun a nv =>
    if is_ddp_ignored a.st nv.2 then
      match load_entry sd pre nv.1 (paramTensor a.st nv.2).shape strict
          a.missing a.errors with
      | (m2, e2, some t) =>
        let pd := upsert a.st.param_data nv.2 { paramTensor a.st nv.2 with data := t.data }
        { a with missing := m2, errors := e2, st := { a.st with param_data := pd } }
      | (m2, e2, none) => { a with missing := m2, errors := e2 }
    else a) acc

/-- The fp32-to-name mapping of `_load_from_state_dict` — source lines
554-558. -/
def fp32_to_name (st : FSDPState) : List (Nat × String) :=
  (st.fp16_params.zip st.fp32_params).foldl (fun acc pf =>
    match List.lookup pf.1 st.param2name with
    | some n => acc ++ [(pf.2, n)]
    | none => acc) []

/-- One chunk of the fp32 loading loop — source lines 561-580: rebuild
the full content (`get_temp_total_chunk_on_cuda`, modelled as the full
payload), run the `load` closure on the slice of every member tensor,
then write the result back into the resident storage (the whole
gathered buffer, or the local shard region). -/
def load_chunk (sd : List (String × Tensor)) (pre : String)
    (strict : Bool) (f32name : List (Nat × String))
    (acc : LoadAcc) (cid : Nat) : LoadAcc :=
  match chunkAt acc.st cid with
  | none => acc
  | some c =>
    let step := c.tensors_info.foldl (fun (ta : List Rat × LoadAcc) kv =>
      let pname := (List.lookup kv.1 f32name).getD ""
      let dshape := (paramTensor ta.2.st kv.1).shape
      match load_entry sd pre pname dshape strict ta.2.missing ta.2.errors with
      | (m2, e2, some t) =>
        (writeSlice ta.1 kv.2.offset t.data,
         { ta.2 with missing := m2, errors := e2 })
      | (m2, e2, none) => (ta.1, { ta.2 with missing := m2, errors := e2 }))
      (c.payload, acc)
    let temp := step.1
    let st2 := updChunk step.2.st cid (fun c2 =>
      if c2.is_gathered then { c2 with payload := temp }
      else if c2.cuda_shard_present then
        let v := writeSlice c2.payload c2.shard_begin (readSlice temp c2.shard_begin c2.shard_end)
        { c2 with payload := v }
      else
        let v := writeSlice c2.payload c2.shard_begin (readSlice temp c2.shard_begin c2.shard_end)
        { c2 with payload := v })
    { step.2 with st := st2 }

/-- Modelled from the spec: `optim_update()` on a compute-precision
chunk propagates the values of its paired master chunk into it (the
narrowing cast is value-preserving in the rational model; the
precision policy is out of scope). -/
def optim_update (st : FSDPState) (cid : Nat) : FSDPState :=
  let st2 := updChunk st cid (fun c =>
    match c.paired_chunk with
    | some mid =>
      match chunkAt st mid with
      | some m => { c with payload := m.payload }
      | none => c
    | none => c)
  logE st2 (Event.optim_update cid)

/-- The pairing loop of `_load_from_state_dict` — source lines 582-585:
assert every loaded fp32 chunk has a paired compute chunk and trigger
`optim_update` on it. -/
def pairs_loop (st : FSDPState) : List Nat → Res Unit
  | [] => Res.ok st ()
  | cid :: rest =>
    match chunkAt st cid with
    | none => pairs_loop st rest
    | some c =>
      match c.paired_chunk with
      | none => Res.err "AssertionError: chunk_16 is not None" st
      | some cid16 => pairs_loop (optim_update st cid16) rest

/-- The buffer loop of `_load_from_state_dict` — source lines 587-589. -/
def load_buffers (sd : List (String × Tensor)) (pre : String)
    (strict : Bool) (acc : LoadAcc) : LoadAcc :=
  acc.st.buffers.foldl (fun a nb =>
    match load_entry sd pre nb.1 nb.2.shape strict a.missing a.errors with
    | (m2, e2, some t) =>
      let bufs := upsert a.st.buffers nb.1 { nb.2 with data := t.data }
      { a with missing := m2, errors := e2, st := { a.st with buffers := bufs } }
    | (m2, e2, none) => { a with missing := m2, errors := e2 }) acc

/-- `key.startswith(prefix)` on the character lists (the library
function on `String` does not reduce definitionally). -/
def str_starts (pre k : String) : Bool := pre.data.isPrefixOf k.data

/-- The names in `local_state` — source lines 505-513: every named
parameter and every persistent buffer. -/
def local_state_keys (st : FSDPState) : List String :=
  st.name2param.map (fun kv => kv.1) ++ st.buffers.map (fun kv => kv.1)

/-- `_load_from_state_dict(state_dict, prefix, local_metadata, strict,
missing_keys, unexpected_keys, error_msgs)` — source lines 453-608.
No pre-hooks are registered and the class overrides neither
`get_extra_state` nor `set_extra_state`, so the extra-state branch
reduces to the strict unexpected-key record.  Returns the missing,
unexpected and error-message lists. -/
def _load_from_state_dict (st : FSDPState) (sd : List (String × Tensor))
    (pre : String) (strict : Bool) :
    Res (List String × List String × List String) :=
  let acc0 : LoadAcc := { st := st, missing := [], unexpected := [], errors := [] }
  let acc1 := load_ignored_params sd pre strict acc0
  let f32n := fp32_to_name st
  let chunk_list := get_chunks st.chunk_manager st.fp32_params
  let acc2 := chunk_list.foldl (load_chunk sd pre strict f32n) acc1
  match pairs_loop acc2.st chunk_list with
  | Res.err m s => Res.err m s
  | Res.ok st3 _ =>
    let acc3 := load_buffers sd pre strict { acc2 with st := st3 }
    let extra_key := pre ++ "_extra_state"
    let unexp1 :=
      if strict && sd.any (fun kv => kv.1 == extra_key)
      then acc3.unexpected ++ [extra_key] else acc3.unexpected
    let locals := local_state_keys st
    let unexp2 := unexp1 ++
      (if strict then
        ((sd.map (fun kv => kv.1)).filter (fun k =>
          str_starts pre k && k != extra_key &&
          !(locals.contains (k.drop pre.length))))
      else [])
    Res.ok acc3.st (acc3.missing, unexp2, acc3.errors)

/-- The aggregated unexpected-keys message — source lines 431-436. -/
def unexpected_keys_msg (u : List String) : String :=
  "Unexpected key(s) in state_dict: " ++
  String.intercalate ", " (u.map (fun k => "\"" ++ k ++ "\"")) ++ ". "

/-- The aggregated missing-keys message — source lines 437-443. -/
def missing_keys_msg (m : List String) : String :=
  "Missing key(s) in state_dict: " ++
  String.intercalate ", " (m.map (fun k => "\"" ++ k ++ "\"")) ++ ". "

/-- The consolidated load failure — source lines 445-450. -/
def load_err_msg (msgs : List String) : String :=
  "Error(s) in loading state_dict for _FullyShardedDataParallel:\n\t" ++
  String.intercalate "\n\t" msgs

/-- `load_state_dict(state_dict, strict)` — source lines 381-451: run
`_load_from_state_dict` with the collection flag hardcoded to `True`
(line 423), then under `strict` prepend the aggregated
unexpected-keys and missing-keys messages to the error list, raise the
single consolidated failure when the list is non-empty, and otherwise
return the missing and unexpected key lists. -/
def load_state_dict (st : FSDPState) (sd : List (String × Tensor))
    (strict : Bool) : Res (List String × List String) :=
  match _load_from_state_dict st sd "" true with
  | Res.err m s => Res.err m s
  | Res.ok st1 r =>
    let missing := r.1
    let unexpected := r.2.1
    let e := r.2.2
    let e1 := if strict && unexpected ≠ [] then unexpected_keys_msg unexpected :: e else e
    let e2 := if strict && missing ≠ [] then missing_keys_msg missing :: e1 else e1
    if e2 ≠ [] then Res.err (load_err_msg e2) st1
    else Res.ok st1 (missing, unexpected)

/-! ### Concrete states used by the witnesses and counterexamples -/

/-- A one-tensor chunk ready for reduction (parameter 1 occupies the
whole two-element buffer). -/
def chunkEx : Chunk :=
  { tensors_info := [(1, { state := TensorState.HOLD_AFTER_BWD, offset := 0, end_off := 2 })]
    payload := [10, 20], is_gathered := true, keep_gathered := false
    shard_begin := 0, shard_end := 2, cuda_shard_present := false
    pg_size := 2, has_inf_or_nan := true, l2_norm_flag := true, l2_norm := none
    device := Device.cpu, paired_chunk := none }

/-- A small concrete wrapper state: one fp16 parameter (1) in chunk 0,
its fp32 twin (2), one gradient slot, uninitialized memory reading 1. -/
def stEx : FSDPState :=
  { chunk_manager := { chunks := [chunkEx], accessed_chunks := [0] }
    hetero := { need_warmup := true, warmup_done := false, iter_attrs := IterAttrs.init }
    overflow_counter := 0
    grads_device := [(1, Device.cuda)]
    param2name := [(1, "w")]
    name2param := [("w", 1)]
    fp16_params := [1], fp32_params := [2], module_params := [1]
    ddp_ignored := [], reduced_label := [], grads := [(1, none)]
    param_data := [(1, { shape := [2], dtype := Dtype.f16, data := [0, 0] })]
    buffers := [], rank := 0, training_phase_fwd := true, uninit := 1, trace := [] }

/-- A concrete incoming gradient for parameter 1. -/
def gradEx : Tensor := { shape := [2], dtype := Dtype.f16, data := [3, 4] }

/-- `stEx` with parameter 1 stuck in HOLD (its gradient arrived through
an unsupported compute path). -/
def stExHold : FSDPState :=
  { stEx with chunk_manager :=
      { stEx.chunk_manager with chunks :=
          [{ chunkEx with tensors_info :=
              [(1, { state := TensorState.HOLD, offset := 0, end_off := 2 })] }] } }

/-- `stEx` with a gradient installed for parameter 1. -/
def stExGrad : FSDPState :=
  { stEx with grads := [(1, some gradEx)] }

/-- `stEx` after a completed warm-up iteration. -/
def stExWarm : FSDPState :=
  { stEx with hetero := { stEx.hetero with warmup_done := true } }

/-- Successive removal of every listed chunk id from the accessed set:
the abstract shape of the `_post_forward` release loop. -/
def removeAll (acc : List Nat) : List Nat → List Nat
  | [] => acc
  | c :: rest => removeAll (acc.filter (fun x => x ≠ c)) rest

/-- Whether a call returned normally. -/
def Res.isOk {α : Type} (r : Res α) : Bool :=
  match r with
  | Res.ok _ _ => true
  | Res.err _ _ => false

/-- A live buffer tensor of shape [2, 2]: the destination of the
load examples. -/
def bufB : Tensor := { shape := [2, 2], dtype := Dtype.f32, data := [0, 0, 0, 0] }

/-- A wrapper state with no parameters and one persistent buffer "b":
the parameter and chunk loops of the load path are empty, only the
buffer loop runs. -/
def stLoadB : FSDPState :=
  { stEx with
      chunk_manager := { chunks := [], accessed_chunks := [] }
      grads_device := [], param2name := [], name2param := []
      fp16_params := [], fp32_params := [], module_params := []
      grads := [], param_data := []
      buffers := [("b", bufB)] }

/-- A checkpoint whose entry for "b" has shape [4]: a genuine shape
mismatch against the live [2, 2] (no backward-compatibility case). -/
def sdMismatch : List (String × Tensor) :=
  [("b", { shape := [4], dtype := Dtype.f32, data := [1, 2, 3, 4] })]

/-- A 0-dimensional (scalar) live buffer. -/
def bufS : Tensor := { shape := [], dtype := Dtype.f32, data := [5] }

/-- The state whose single buffer "s" is a scalar. -/
def stLoadS : FSDPState := { stLoadB with buffers := [("s", bufS)] }

/-- A checkpoint storing "s" as a 1-dimensional tensor of shape [1]:
the stored shape disagrees with the live shape, but this is exactly
the backward-compatibility case of source lines 520-521. -/
def sdCompat : List (String × Tensor) :=
  [("s", { shape := [1], dtype := Dtype.f32, data := [7] })]

/-- A checkpoint with a well-shaped entry for "b" plus a stray key. -/
def sdJunkOk : List (String × Tensor) :=
  [("b", { shape := [2, 2], dtype := Dtype.f32, data := [1, 2, 3, 4] }),
   ("junk", { shape := [1], dtype := Dtype.f32, data := [9] })]

/-- A checkpoint holding only a stray key: "b" is missing and "junk"
is unexpected. -/
def sdJunk : List (String × Tensor) :=
  [("junk", { shape := [1], dtype := Dtype.f32, data := [9] })]

/-- The master-precision (fp32) chunk of the pairing example, paired
to compute chunk 1. -/
def chunkM : Chunk :=
  { chunkEx with
      tensors_info := [(2, { state := TensorState.HOLD, offset := 0, end_off := 2 })]
      payload := [8, 9], has_inf_or_nan := false, l2_norm_flag := false
      paired_chunk := some 1 }

/-- The compute-precision (fp16) chunk of the pairing example, paired
back to master chunk 0. -/
def chunkC : Chunk :=
  { chunkEx with
      payload := [0, 0], has_inf_or_nan := false, l2_norm_flag := false
      paired_chunk := some 0 }

/-- A state holding the master/compute chunk pair. -/
def stPair : FSDPState :=
  { stLoadB with
      chunk_manager := { chunks := [chunkM, chunkC], accessed_chunks := [] }
      buffers := [] }

/-! ### Shared lemmas -/

/-- Looking up in a key-preserving map of an association list. -/
theorem lookup_map_keyed {α β γ : Type} [BEq α] [LawfulBEq α]
    (l : List (α × β)) (f : α → β → γ) (a : α) :
    List.lookup a (l.map (fun kv => (kv.1, f kv.1 kv.2))) =
      (List.lookup a l).map (f a) := by
  induction l with
  | nil => rfl
  | cons kv t ih =>
    simp only [List.map_cons, List.lookup]
    cases h : a == kv.1 with
    | true => simp [eq_of_beq h]
    | false => exact ih

/-! ### C8: zero_grad ignores its argument and drops the gradients -/

/-- C8: for every call to `zero_grad`, whatever `set_to_none` was
passed (including the declared default `False`), the wrapped module is
cleared with `set_to_none=True`: every parameter that held a gradient
ends with its gradient set to `None`, never zero-filled. -/
theorem zero_grad_always_sets_to_none (st : FSDPState) (b : Bool) :
    zero_grad st b = module_zero_grad st true ∧
    (zero_grad st b).grads = st.grads.map (fun kv => (kv.1, none)) := by
  refine ⟨rfl, ?_⟩
  show (module_zero_grad st true).grads = _
  simp only [module_zero_grad]
  apply List.map_congr_left
  intro kv _
  cases h : kv.2 <;> simp

/-! ### C10: state_dict rejects keep_vars=True -/

/-- C10: every call to `state_dict` with `keep_vars=True` fails with
the assertion error instead of producing a dictionary (the assertion
sits at the top of `_save_to_state_dict`, before anything is
gathered). -/
theorem state_dict_keep_vars_rejected (st : FSDPState) (pre : String)
    (only_rank_0 : Bool) :
    state_dict st pre true only_rank_0 = Res.err keep_vars_assert_msg st := rfl

/-! ### C9: inference-mode forward during warm-up asserts -/

/-- C9: a forward call with gradients disabled while the memory
manager still needs its warm-up iteration fails with the warm-up
assertion, the state returned untouched — nothing was accessed, so an
inference-only pass can never serve as the warm-up iteration. -/
theorem forward_warmup_asserts (st : FSDPState) (engine : FSDPState → FSDPState)
    (h1 : st.hetero.need_warmup = true) (h2 : st.hetero.is_warmup = true) :
    forward st false engine = Res.err warmup_assert_msg st := by
  simp [forward, h1, h2]

/-- Witness for C9 at a concrete warm-up state. -/
theorem forward_warmup_asserts_witness :
    forward stEx false id = Res.err warmup_assert_msg stEx :=
  forward_warmup_asserts stEx id rfl rfl

/-! ### C2: grad_handle on an unsupported compute path -/

/-- C2: when the gradient handler fires for a parameter whose recorded
state in its owning chunk is not HOLD_AFTER_BWD (and not COMPUTE,
which the hook itself converts to HOLD_AFTER_BWD), `grad_handle`
raises the fatal error naming that parameter and the returned state is
exactly the incoming one: no state transition, no gradient copy and
no reduction was performed. -/
theorem grad_handle_unsupported_path_raises
    (st : FSDPState) (p : Nat) (grad : Tensor) (cid : Nat) (c : Chunk)
    (s0 : TensorState) (name : String)
    (h1 : get_chunk st.chunk_manager p = some cid)
    (h2 : chunkAt st cid = some c)
    (h3 : c.stateOf p = some s0)
    (h4 : s0 ≠ TensorState.COMPUTE)
    (h5 : s0 ≠ TensorState.HOLD_AFTER_BWD)
    (h6 : List.lookup p st.param2name = some name) :
    grad_handle st p grad = Res.err (gradHandleFailMsg name) st := by
  have hook : hook_post_backward st p = st := by
    unfold hook_post_backward
    simp only [h1, h2, h3]
    simp [h4]
  unfold grad_handle
  simp only [hook, h1, h2, h3]
  rw [if_pos h5, h6]

/-- Witness for C2: parameter 1 sits in HOLD when its gradient fires. -/
theorem grad_handle_unsupported_path_raises_witness :
    grad_handle stExHold 1 gradEx = Res.err (gradHandleFailMsg "w") stExHold :=
  grad_handle_unsupported_path_raises stExHold 1 gradEx 0
    { chunkEx with tensors_info :=
        [(1, { state := TensorState.HOLD, offset := 0, end_off := 2 })] }
    TensorState.HOLD "w" (by decide) (by decide) (by decide)
    (by decide) (by decide) (by decide)

/-! ### C3: iteration-end reduction check -/

theorem lookup_upsert_self {κ β : Type} [BEq κ] [LawfulBEq κ]
    (l : List (κ × β)) (k : κ) (v : β) :
    List.lookup k (upsert l k v) = some v := by
  simp [upsert, List.lookup]

theorem lookup_upsert_ne {κ β : Type} [BEq κ] [LawfulBEq κ]
    (l : List (κ × β)) (k k2 : κ) (v : β) (hne : (k == k2) = false) :
    List.lookup k (upsert l k2 v) = List.lookup k l := by
  simp [upsert, List.lookup, hne]

theorem lookup_upsert_of_eq {κ β : Type} [BEq κ] [LawfulBEq κ]
    (l : List (κ × β)) (k k2 : κ) (v : β) (h : List.lookup k l = some v) :
    List.lookup k (upsert l k2 v) = some v := by
  cases hk : (k == k2) with
  | true =>
    have : k = k2 := by rwa [beq_iff_eq] at hk
    subst this
    exact lookup_upsert_self l k v
  | false => rw [lookup_upsert_ne l k k2 v hk]; exact h

/-- A fold of false-valued label writes preserves a false binding. -/
theorem foldl_labels_preserve (ign : Nat → Bool) (ps : List (Nat × String))
    (init : List (Nat × Bool)) (q : Nat)
    (h : List.lookup q init = some false) :
    List.lookup q (ps.foldl (fun acc kv =>
      if ign kv.1 then acc else upsert acc kv.1 false) init) = some false := by
  induction ps generalizing init with
  | nil => exact h
  | cons kv t ih =>
    simp only [List.foldl_cons]
    cases hi : ign kv.1 with
    | true => simp only [if_true]; exact ih init h
    | false =>
      simp only [Bool.false_eq_true, if_false]
      exact ih _ (lookup_upsert_of_eq init q kv.1 false h)

/-- After the label-setting fold, every non-ignored listed parameter
carries an explicit false label. -/
theorem foldl_labels_false (ign : Nat → Bool) (ps : List (Nat × String))
    (init : List (Nat × Bool)) (q : Nat)
    (hq : q ∈ ps.map (fun kv => kv.1)) (hig : ign q = false) :
    List.lookup q (ps.foldl (fun acc kv =>
      if ign kv.1 then acc else upsert acc kv.1 false) init) = some false := by
  induction ps generalizing init with
  | nil => simp at hq
  | cons kv t ih =>
    simp only [List.map_cons, List.mem_cons] at hq
    simp only [List.foldl_cons]
    by_cases hqt : q ∈ t.map (fun kv => kv.1)
    · exact ih _ hqt
    · have hqk : q = kv.1 := by
        cases hq with
        | inl h => exact h
        | inr h => exact absurd h hqt
      subst hqk
      rw [hig]
      simp only [Bool.false_eq_true, if_false]
      exact foldl_labels_preserve ign t _ kv.1 (lookup_upsert_self init kv.1 false)

/-- C3: the reduced-visit label of every non-ignored parameter is set
to false at the start of the backward pass; at its end, a non-zero
accessed-memory counter makes `_post_backward` raise the fatal error
whose message lists exactly the non-ignored parameters whose label is
still false, while a zero counter completes the step: the gradient
pointers of the non-ignored parameters are cleared and the iteration
is closed through `post_iter`. -/
theorem post_backward_incomplete_reduction (st : FSDPState) :
    (∀ q, q ∈ st.param2name.map (fun kv => kv.1) →
       is_ddp_ignored st q = false → reduced_flag (_pre_backward st) q = false) ∧
    (accessed_mem st ≠ 0 →
       _post_backward st = Res.err (post_backward_fail_msg st) (toggle_training_phase st) ∧
       ∀ q n, (q, n) ∈ unreduced_named st ↔
         ((q, n) ∈ st.param2name ∧ is_ddp_ignored st q = false ∧
          reduced_flag st q = false)) ∧
    (accessed_mem st = 0 →
       ∃ stf, _post_backward st = Res.ok stf () ∧
         stf.grads = st.grads.map (fun kv =>
           (kv.1, if is_ddp_ignored st kv.1 then kv.2 else none)) ∧
         stf.hetero = st.hetero.post_iter ∧
         stf.trace = Event.post_iter :: st.trace) := by
  refine ⟨?_, ?_, ?_⟩
  · intro q hq hig
    show (List.lookup q
      (st.param2name.foldl (fun acc kv =>
        if is_ddp_ignored (toggle_training_phase st) kv.1 then acc
        else upsert acc kv.1 false) st.reduced_label)).getD false = false
    rw [foldl_labels_false (fun n => is_ddp_ignored (toggle_training_phase st) n)
      st.param2name st.reduced_label q hq hig]
    rfl
  · intro h
    constructor
    · simp only [_post_backward]
      rw [if_pos (show accessed_mem (toggle_training_phase st) ≠ 0 from h)]
      rfl
    · intro q n
      unfold unreduced_named
      rw [List.mem_filter]
      simp [Bool.and_eq_true, Bool.not_eq_true']
  · intro h
    refine ⟨logE { setup_grads_ptr (toggle_training_phase st) with
        hetero := (setup_grads_ptr (toggle_training_phase st)).hetero.post_iter }
        Event.post_iter, ?_, rfl, rfl, rfl⟩
    simp only [_post_backward]
    rw [if_neg (show ¬accessed_mem (toggle_training_phase st) ≠ 0 from fun hc => hc h)]

/-- Witness for C3 at a concrete state: `stEx` has chunk 0 accessed, so
its accessed memory is non-zero and `_post_backward` raises the
incomplete-reduction error naming parameter `w`. -/
theorem post_backward_incomplete_reduction_witness :
    _post_backward stEx =
      Res.err (post_backward_fail_msg stEx) (toggle_training_phase stEx) :=
  ((post_backward_incomplete_reduction stEx).2.1 (by decide)).1

/-! ### C4: inference-mode forward scatters every accessed chunk -/

theorem chunkAt_updChunk_self (st : FSDPState) (cid : Nat) (f : Chunk → Chunk) :
    chunkAt (updChunk st cid f) cid = (chunkAt st cid).map f := by
  unfold chunkAt updChunk listUpd
  cases h : st.chunk_manager.chunks[cid]? with
  | none => simp [h]
  | some c =>
    simp only [h]
    rw [List.getElem?_set_self (List.getElem?_eq_some.mp h).1]
    rfl

theorem chunkAt_updChunk_ne (st : FSDPState) (cid d : Nat) (f : Chunk → Chunk)
    (h : d ≠ cid) :
    chunkAt (updChunk st cid f) d = chunkAt st d := by
  unfold chunkAt updChunk listUpd
  cases h2 : st.chunk_manager.chunks[cid]? with
  | none => rfl
  | some c =>
    simp only [h2]
    exact List.getElem?_set_ne (fun e => h e.symm)

/-- Everything a successful `_post_forward` loop step guarantees. -/
theorem post_forward_step_ok (st st1 : FSDPState) (cid : Nat)
    (h : post_forward_step st cid = Res.ok st1 ()) :
    st1.chunk_manager.accessed_chunks
        = st.chunk_manager.accessed_chunks.filter (fun x => x ≠ cid) ∧
    st1.grads_device = st.grads_device ∧
    st1.hetero = st.hetero ∧
    (∀ d, d ≠ cid → chunkAt st1 d = chunkAt st d) ∧
    (∃ pre, st1.trace = pre ++ st.trace) ∧
    ∃ c kv dev, chunkAt st cid = some c ∧
      c.tensors_info.head? = some kv ∧
      List.lookup kv.1 st.grads_device = some dev ∧
      ∃ cf, chunkAt st1 cid = some cf ∧ cf.device = dev ∧
        Event.move_chunk cid dev false ∈ st1.trace ∧
        (c.keep_gathered = true →
          Event.fake_release cid ∈ st1.trace ∧ cf.is_gathered = c.is_gathered) ∧
        (c.keep_gathered = false →
          Event.release cid ∈ st1.trace ∧ cf.is_gathered = false) := by
  unfold post_forward_step at h
  split at h
  · cases h
  · rename_i c hc
    split at h
    · rename_i hkg
      unfold post_forward_move at h
      split at h
      · cases h
      · rename_i kv hhd
        have hgd : (fake_release_chunk st cid).grads_device = st.grads_device := rfl
        rw [hgd] at h
        split at h
        · cases h
        · rename_i dev hlk
          cases h
          refine ⟨rfl, rfl, rfl, ?_, ⟨[Event.move_chunk cid dev false,
            Event.fake_release cid], rfl⟩, c, kv, dev, hc, hhd, hlk, ?_⟩
          · intro d hd
            exact chunkAt_updChunk_ne (fake_release_chunk st cid) cid d _ hd
          · refine ⟨{ c with device := dev }, ?_, rfl, ?_, ?_, ?_⟩
            · have h2 := chunkAt_updChunk_self (fake_release_chunk st cid) cid
                (fun c => { c with device := dev })
              rw [show chunkAt (fake_release_chunk st cid) cid = some c from hc] at h2
              exact h2
            · exact List.mem_cons_self _ _
            · intro _
              exact ⟨List.mem_cons_of_mem _ (List.mem_cons_self _ _), rfl⟩
            · intro hfalse
              rw [hkg] at hfalse
              cases hfalse
    · split at h
      · rename_i hkg hcr
        unfold post_forward_move at h
        split at h
        · cases h
        · rename_i kv hhd
          have hgd : (release_chunk st cid).grads_device = st.grads_device := rfl
          rw [hgd] at h
          split at h
          · cases h
          · rename_i dev hlk
            cases h
            have hkg2 : c.keep_gathered = false := by
              cases hx : c.keep_gathered
              · rfl
              · exact absurd hx hkg
            refine ⟨rfl, rfl, rfl, ?_, ⟨[Event.move_chunk cid dev false,
              Event.release cid], rfl⟩, c, kv, dev, hc, hhd, hlk, ?_⟩
            · intro d hd
              have e1 : chunkAt (move_chunk (release_chunk st cid) cid dev false) d
                  = chunkAt (release_chunk st cid) d :=
                chunkAt_updChunk_ne (release_chunk st cid) cid d _ hd
              have e2 : chunkAt (release_chunk st cid) d = chunkAt st d :=
                chunkAt_updChunk_ne st cid d _ hd
              exact e1.trans e2
            · refine ⟨{ c with is_gathered := false, device := dev }, ?_, rfl, ?_, ?_, ?_⟩
              · have h2 := chunkAt_updChunk_self (release_chunk st cid) cid
                  (fun c => { c with device := dev })
                have h3 : chunkAt (release_chunk st cid) cid
                    = some { c with is_gathered := false } := by
                  have h4 := chunkAt_updChunk_self st cid
                    (fun c => { c with is_gathered := false })
                  rw [hc] at h4
                  exact h4
                rw [h3] at h2
                exact h2
              · exact List.mem_cons_self _ _
              · intro htrue
                rw [hkg2] at htrue
                cases htrue
              · intro _
                exact ⟨List.mem_cons_of_mem _ (List.mem_cons_self _ _), rfl⟩
      · cases h

/-- Removing every element of a covering list empties the set. -/
theorem removeAll_eq_nil (l : List Nat) (acc : List Nat)
    (h : ∀ x ∈ acc, x ∈ l) : removeAll acc l = [] := by
  induction l generalizing acc with
  | nil =>
    cases acc with
    | nil => rfl
    | cons a t => exact absurd (h a (List.mem_cons_self a t)) (List.not_mem_nil a)
  | cons c rest ih =>
    show removeAll (acc.filter (fun x => x ≠ c)) rest = []
    apply ih
    intro x hx
    rw [List.mem_filter] at hx
    have hxr := h x hx.1
    rw [List.mem_cons] at hxr
    cases hxr with
    | inl he => exact absurd he (by simpa using hx.2)
    | inr hr => exact hr

/-- Everything a successful `_post_forward` loop run guarantees. -/
theorem post_forward_loop_ok (l : List Nat) (st stf : FSDPState)
    (hnd : l.Nodup)
    (h : post_forward_loop st l = Res.ok stf ()) :
    stf.chunk_manager.accessed_chunks = removeAll st.chunk_manager.accessed_chunks l ∧
    stf.grads_device = st.grads_device ∧
    stf.hetero = st.hetero ∧
    (∀ d, d ∉ l → chunkAt stf d = chunkAt st d) ∧
    (∃ pre, stf.trace = pre ++ st.trace) ∧
    ∀ cid ∈ l, ∃ c kv dev, chunkAt st cid = some c ∧
      c.tensors_info.head? = some kv ∧
      List.lookup kv.1 st.grads_device = some dev ∧
      ∃ cf, chunkAt stf cid = some cf ∧ cf.device = dev ∧
        Event.move_chunk cid dev false ∈ stf.trace ∧
        (c.keep_gathered = true →
          Event.fake_release cid ∈ stf.trace ∧ cf.is_gathered = c.is_gathered) ∧
        (c.keep_gathered = false →
          Event.release cid ∈ stf.trace ∧ cf.is_gathered = false) := by
  induction l generalizing st with
  | nil =>
    cases h
    exact ⟨rfl, rfl, rfl, fun d _ => rfl, ⟨[], rfl⟩, fun cid hc => absurd hc (List.not_mem_nil cid)⟩
  | cons cid rest ih =>
    unfold post_forward_loop at h
    split at h
    · rename_i st1 u hstep
      cases u
      rw [List.nodup_cons] at hnd
      obtain ⟨S1, S2, S3, S4, ⟨pre1, hpre1⟩, c, kv, dev, hc, hhd, hlk, cf, hcf, hdev,
        hmv, hkgt, hkgf⟩ := post_forward_step_ok st st1 cid hstep
      obtain ⟨I1, I2, I3, I4, ⟨pre2, hpre2⟩, I6⟩ := ih st1 hnd.2 h
      refine ⟨?_, I2.trans S2, I3.trans S3, ?_, ?_, ?_⟩
      · show _ = removeAll (st.chunk_manager.accessed_chunks.filter (fun x => x ≠ cid)) rest
        rw [← S1]
        exact I1
      · intro d hd
        rw [List.mem_cons] at hd
        push_neg at hd
        exact (I4 d hd.2).trans (S4 d hd.1)
      · exact ⟨pre2 ++ pre1, by rw [hpre2, hpre1, List.append_assoc]⟩
      · intro x hx
        rw [List.mem_cons] at hx
        cases hx with
        | inl he =>
          subst he
          refine ⟨c, kv, dev, hc, hhd, hlk, cf, ?_, hdev, ?_, ?_, ?_⟩
          · rw [I4 x hnd.1]
            exact hcf
          · rw [hpre2]
            exact List.mem_append_right pre2 hmv
          · intro ht
            obtain ⟨he1, he2⟩ := hkgt ht
            exact ⟨by rw [hpre2]; exact List.mem_append_right pre2 he1, he2⟩
          · intro hf
            obtain ⟨he1, he2⟩ := hkgf hf
            exact ⟨by rw [hpre2]; exact List.mem_append_right pre2 he1, he2⟩
        | inr hr =>
          obtain ⟨c2, kv2, dev2, hc2, hhd2, hlk2, cf2, hcf2, hdev2, hmv2, hkgt2, hkgf2⟩ :=
            I6 x hr
          have hxne : x ≠ cid := fun e => hnd.1 (e ▸ hr)
          refine ⟨c2, kv2, dev2, ?_, hhd2, ?_, cf2, hcf2, hdev2, hmv2, hkgt2, hkgf2⟩
          · rw [← S4 x hxne]
            exact hc2
          · rw [← S2]
            exact hlk2
    · cases h

/-- Everything a successful `_post_forward` call guarantees. -/
theorem _post_forward_ok (st stf : FSDPState)
    (hnd : st.chunk_manager.accessed_chunks.Nodup)
    (h : _post_forward st = Res.ok stf ()) :
    stf.chunk_manager.accessed_chunks = [] ∧
    accessed_mem stf = 0 ∧
    stf.hetero.iter_attrs = IterAttrs.init ∧
    ∀ cid ∈ st.chunk_manager.accessed_chunks, ∃ c kv dev, chunkAt st cid = some c ∧
      c.tensors_info.head? = some kv ∧
      List.lookup kv.1 st.grads_device = some dev ∧
      ∃ cf, chunkAt stf cid = some cf ∧ cf.device = dev ∧
        Event.move_chunk cid dev false ∈ stf.trace ∧
        (c.keep_gathered = true →
          Event.fake_release cid ∈ stf.trace ∧ cf.is_gathered = c.is_gathered) ∧
        (c.keep_gathered = false →
          Event.release cid ∈ stf.trace ∧ cf.is_gathered = false) := by
  unfold _post_forward at h
  split at h
  · cases h
  · rename_i st1 u hloop
    cases u
    split at h
    · cases h
    · cases h
      obtain ⟨L1, _, L3, _, _, L6⟩ :=
        post_forward_loop_ok st.chunk_manager.accessed_chunks st st1 hnd hloop
      have hemp : st1.chunk_manager.accessed_chunks = [] := by
        rw [L1]
        exact removeAll_eq_nil _ _ (fun x hx => hx)
      refine ⟨hemp, ?_, rfl, ?_⟩
      · unfold accessed_mem
        show ((st1.chunk_manager.accessed_chunks.map _).sum) = 0
        rw [hemp]
        rfl
      · intro cid hcid
        obtain ⟨c, kv, dev, hc, hhd, hlk, cf, hcf, hdev, hmv, hkgt, hkgf⟩ := L6 cid hcid
        exact ⟨c, kv, dev, hc, hhd, hlk, cf, hcf, hdev, hmv, hkgt, hkgf⟩

/-- C4: a forward call in inference mode that completes leaves an empty
accessed set with zero accessed memory, resets the transient
per-iteration attributes, and every chunk that was in the accessed set
after the engine ran has been fake-released (keep-gathered) or
physically released (scattered back to its shard) and moved to the
gradient device configured for its first tensor with the default
non-forced copy. -/
theorem forward_inference_cleanup (st : FSDPState)
    (engine : FSDPState → FSDPState) (stf : FSDPState)
    (hnd : (forward_inner st engine).chunk_manager.accessed_chunks.Nodup)
    (h : forward st false engine = Res.ok stf ()) :
    stf.chunk_manager.accessed_chunks = [] ∧
    accessed_mem stf = 0 ∧
    stf.hetero.iter_attrs = IterAttrs.init ∧
    ∀ cid ∈ (forward_inner st engine).chunk_manager.accessed_chunks,
      ∃ c kv dev, chunkAt (forward_inner st engine) cid = some c ∧
        c.tensors_info.head? = some kv ∧
        List.lookup kv.1 (forward_inner st engine).grads_device = some dev ∧
        ∃ cf, chunkAt stf cid = some cf ∧ cf.device = dev ∧
          Event.move_chunk cid dev false ∈ stf.trace ∧
          (c.keep_gathered = true →
            Event.fake_release cid ∈ stf.trace ∧ cf.is_gathered = c.is_gathered) ∧
          (c.keep_gathered = false →
            Event.release cid ∈ stf.trace ∧ cf.is_gathered = false) := by
  unfold forward at h
  split at h
  · cases h
  · rw [if_pos (show (!false) = true from rfl)] at h
    split at h
    · cases h
    · rename_i st5 val hpf
      cases val
      cases h
      exact _post_forward_ok (forward_inner st engine) stf hnd hpf

/-- Witness for C4: the concrete post-warm-up state, identity engine;
the single accessed chunk ends released and the counter at zero. -/
theorem forward_inference_cleanup_witness :
    (match forward stExWarm false id with
     | Res.ok stf _ =>
        stf.chunk_manager.accessed_chunks = [] ∧ accessed_mem stf = 0 ∧
        stf.hetero.iter_attrs = IterAttrs.init
     | Res.err _ _ => False) := by
  have hok : (forward stExWarm false id).isOk = true := by decide
  match hEq : forward stExWarm false id with
  | Res.ok stf u =>
    obtain ⟨h1, h2, h3, _⟩ := forward_inference_cleanup stExWarm id stf (by decide)
      (by cases u; exact hEq)
    exact ⟨h1, h2, h3⟩
  | Res.err m s =>
    rw [hEq] at hok
    cases hok

/-! ### C1: grad_handle on-fire effects -/

theorem chunkAt_logE (st : FSDPState) (e : Event) (cid : Nat) :
    chunkAt (logE st e) cid = chunkAt st cid := rfl

theorem chunkAt_remove_accessed (st : FSDPState) (cid d : Nat) :
    chunkAt (remove_accessed st cid) d = chunkAt st d := rfl

theorem chunkAt_trans_tensor_state (st : FSDPState) (p : Nat) (s : TensorState)
    (cid : Nat) (c : Chunk)
    (h1 : get_chunk st.chunk_manager p = some cid) (h2 : chunkAt st cid = some c) :
    chunkAt (trans_tensor_state st p s) cid = some (c.setState p s) := by
  unfold trans_tensor_state
  rw [h1]
  show chunkAt (logE (updChunk st cid _) _) cid = _
  rw [chunkAt_logE, chunkAt_updChunk_self, h2]
  rfl

theorem lookup_setState_self (c : Chunk) (p : Nat) (s : TensorState) (ti : TensorInfo)
    (h : List.lookup p c.tensors_info = some ti) :
    List.lookup p (c.setState p s).tensors_info = some { ti with state := s } := by
  have hm := lookup_map_keyed c.tensors_info
    (fun k v => if k == p then { v with state := s } else v) p
  conv at hm => rhs; rw [h]; simp
  exact hm

theorem chunkAt_copy (st : FSDPState) (cid p : Nat) (grad : Tensor)
    (c : Chunk) (ti : TensorInfo)
    (h2 : chunkAt st cid = some c) (hti : List.lookup p c.tensors_info = some ti) :
    chunkAt (copy_tensor_to_chunk_slice st cid p grad) cid =
      some { c with payload := writeSlice c.payload ti.offset grad.data } := by
  unfold copy_tensor_to_chunk_slice
  rw [chunkAt_logE, chunkAt_updChunk_self, h2]
  simp only [Option.map_some']
  rw [hti]

theorem Chunk_reduce_fires (c : Chunk)
    (hall : c.tensors_info.all
      (fun kv => kv.2.state == TensorState.READY_FOR_REDUCE) = true) :
    c.reduce = (true, c.reduced) := by
  unfold Chunk.reduce
  rw [hall]
  rfl

theorem reduce_chunk_fires (st : FSDPState) (cid : Nat) (c : Chunk)
    (h2 : chunkAt st cid = some c)
    (hall : c.tensors_info.all
      (fun kv => kv.2.state == TensorState.READY_FOR_REDUCE) = true) :
    reduce_chunk st cid = (true, after_reduce st cid c) := by
  unfold reduce_chunk
  rw [h2]
  show (let r := c.reduce
    if r.1 then
      (true, logE (remove_accessed (updChunk st cid (fun _ => r.2)) cid)
        (Event.reduce_fired cid))
    else (false, st)) = _
  rw [Chunk_reduce_fires c hall]
  rfl

theorem chunkAt_div_resident (st : FSDPState) (cid : Nat) (c : Chunk)
    (h2 : chunkAt st cid = some c) :
    chunkAt (div_resident st cid) cid = some (if c.is_gathered
      then { c with payload := divAll c.payload c.pg_size }
      else { c with payload := divSlice c.payload c.shard_begin c.shard_end c.pg_size }) := by
  unfold div_resident
  rw [chunkAt_updChunk_self, h2]
  rfl

theorem add_overflow_eq (st : FSDPState) (cid : Nat) (c : Chunk)
    (h2 : chunkAt st cid = some c) :
    add_overflow st cid = { st with overflow_counter :=
      st.overflow_counter + (if c.has_inf_or_nan then 1 else 0) } := by
  unfold add_overflow
  rw [h2]

theorem chunkAt_set_l2_norm (st : FSDPState) (cid : Nat) (c : Chunk)
    (h2 : chunkAt st cid = some c) :
    chunkAt (set_l2_norm st cid) cid = some c.with_l2 := by
  unfold set_l2_norm
  rw [chunkAt_updChunk_self, h2]
  rfl

theorem chunkAt_div_resident_t (st : FSDPState) (cid : Nat) (c : Chunk)
    (h2 : chunkAt st cid = some c) (hg : c.is_gathered = true) :
    chunkAt (div_resident st cid) cid = some c.div_gathered := by
  rw [chunkAt_div_resident st cid c h2, if_pos hg]
  rfl

theorem chunkAt_div_resident_f (st : FSDPState) (cid : Nat) (c : Chunk)
    (h2 : chunkAt st cid = some c) (hg : c.is_gathered = false) :
    chunkAt (div_resident st cid) cid = some c.div_shard := by
  rw [chunkAt_div_resident st cid c h2, if_neg (by simp [hg])]
  rfl


theorem chunkAt_add_overflow (st : FSDPState) (cid : Nat) (c : Chunk)
    (h : chunkAt st cid = some c) :
    chunkAt (add_overflow st cid) cid = some c := by
  rw [add_overflow_eq st cid c h]
  exact h

theorem l2_step_true (st : FSDPState) (cid : Nat) (c : Chunk)
    (h : chunkAt st cid = some c) (hf : c.l2_norm_flag = true) :
    l2_step st cid = set_l2_norm st cid := by
  unfold l2_step
  rw [h]
  simp [hf]

theorem l2_step_false (st : FSDPState) (cid : Nat) (c : Chunk)
    (h : chunkAt st cid = some c) (hf : c.l2_norm_flag = false) :
    l2_step st cid = st := by
  unfold l2_step
  rw [h]
  simp [hf]


theorem grads_device_set_l2_norm (st : FSDPState) (cid : Nat) :
    (set_l2_norm st cid).grads_device = st.grads_device := rfl

theorem grads_device_div_resident (st : FSDPState) (cid : Nat) :
    (div_resident st cid).grads_device = st.grads_device := rfl

theorem grads_device_after_reduce (st : FSDPState) (cid : Nat) (c : Chunk) :
    (after_reduce st cid c).grads_device = st.grads_device := rfl

theorem grads_device_add_overflow (st : FSDPState) (cid : Nat) :
    (add_overflow st cid).grads_device = st.grads_device := by
  unfold add_overflow
  cases chunkAt st cid <;> rfl

theorem ovf_move_chunk (st : FSDPState) (cid : Nat) (d : Device) (f : Bool) :
    (move_chunk st cid d f).overflow_counter = st.overflow_counter := rfl

theorem ovf_set_l2_norm (st : FSDPState) (cid : Nat) :
    (set_l2_norm st cid).overflow_counter = st.overflow_counter := rfl

theorem ovf_div_resident (st : FSDPState) (cid : Nat) :
    (div_resident st cid).overflow_counter = st.overflow_counter := rfl

theorem ovf_after_reduce (st : FSDPState) (cid : Nat) (c : Chunk) :
    (after_reduce st cid c).overflow_counter = st.overflow_counter := rfl

theorem ovf_add_overflow (st : FSDPState) (cid : Nat) (c : Chunk)
    (h : chunkAt st cid = some c) :
    (add_overflow st cid).overflow_counter
      = st.overflow_counter + (if c.has_inf_or_nan then 1 else 0) := by
  rw [add_overflow_eq st cid c h]

theorem trace_move_chunk (st : FSDPState) (cid : Nat) (d : Device) (f : Bool) :
    (move_chunk st cid d f).trace = Event.move_chunk cid d f :: st.trace := rfl

theorem trace_set_l2_norm (st : FSDPState) (cid : Nat) :
    (set_l2_norm st cid).trace = st.trace := rfl

theorem trace_div_resident (st : FSDPState) (cid : Nat) :
    (div_resident st cid).trace = st.trace := rfl

theorem trace_after_reduce (st : FSDPState) (cid : Nat) (c : Chunk) :
    (after_reduce st cid c).trace = Event.reduce_fired cid :: st.trace := rfl

theorem trace_add_overflow (st : FSDPState) (cid : Nat) (c : Chunk)
    (h : chunkAt st cid = some c) :
    (add_overflow st cid).trace = st.trace := by
  rw [add_overflow_eq st cid c h]

/-- Everything the `grad_handle` tail guarantees when the reduction
fires: the placeholder is returned, the resident buffer is divided by
the group size, the overflow indicator is added, the l2 norm is
recorded exactly when the flag is set, and the chunk is moved to `dev`
with a forced copy. -/
theorem grad_handle_tail_fires (st0 : FSDPState) (cid p : Nat) (eg : Tensor)
    (c3 : Chunk) (dev : Device)
    (hc3 : chunkAt st0 cid = some c3)
    (hall : c3.tensors_info.all
      (fun kv => kv.2.state == TensorState.READY_FOR_REDUCE) = true)
    (hdev : List.lookup p st0.grads_device = some dev) :
    ∃ stf cf, grad_handle_tail st0 cid p eg = Res.ok stf eg ∧
      chunkAt stf cid = some cf ∧
      cf.device = dev ∧
      cf.is_gathered = c3.keep_gathered ∧
      cf.payload = (if c3.keep_gathered = true then divAll c3.payload c3.pg_size
        else divSlice c3.payload c3.shard_begin c3.shard_end c3.pg_size) ∧
      (c3.l2_norm_flag = true → cf.l2_norm = some (sumSq cf.resident)) ∧
      (c3.l2_norm_flag = false → cf.l2_norm = c3.l2_norm) ∧
      stf.overflow_counter = st0.overflow_counter + (if c3.has_inf_or_nan then 1 else 0) ∧
      Event.move_chunk cid dev true ∈ stf.trace ∧
      Event.reduce_fired cid ∈ stf.trace := by
  have hc4 : chunkAt (after_reduce st0 cid c3) cid = some c3.reduced := by
    unfold after_reduce
    rw [chunkAt_logE, chunkAt_remove_accessed, chunkAt_updChunk_self, hc3]
    rfl
  cases hkg : c3.keep_gathered with
  | true =>
    have hg : (c3.reduced).is_gathered = true := hkg
    have hc5 := chunkAt_div_resident_t _ cid c3.reduced hc4 hg
    have hc6 := chunkAt_add_overflow _ cid _ hc5
    cases hfl : c3.l2_norm_flag with
    | true =>
      have hc7 := chunkAt_set_l2_norm _ cid _ hc6
      have heq : grad_handle_tail st0 cid p eg = Res.ok (move_chunk (set_l2_norm
          (add_overflow (div_resident (after_reduce st0 cid c3) cid) cid) cid)
          cid dev true) eg := by
        unfold grad_handle_tail
        rw [reduce_chunk_fires st0 cid c3 hc3 hall]
        simp only [l2_step_true _ cid _ hc6 hfl]
        rw [grads_device_set_l2_norm, grads_device_add_overflow,
          grads_device_div_resident, grads_device_after_reduce, hdev]
        rfl
      have hchunk := chunkAt_updChunk_self (set_l2_norm
          (add_overflow (div_resident (after_reduce st0 cid c3) cid) cid) cid) cid
          (fun c => { c with device := dev })
      rw [hc7] at hchunk
      refine ⟨_, _, heq, hchunk, rfl, hkg, ?_, ?_, ?_, ?_, ?_, ?_⟩
      · rw [if_pos rfl]
        rfl
      · intro _
        rfl
      · intro hco
        cases hco
      · rw [ovf_move_chunk, ovf_set_l2_norm, ovf_add_overflow _ cid _ hc5,
          ovf_div_resident, ovf_after_reduce]
        rfl
      · rw [trace_move_chunk]
        exact List.mem_cons_self _ _
      · rw [trace_move_chunk, trace_set_l2_norm, trace_add_overflow _ cid _ hc5,
          trace_div_resident, trace_after_reduce]
        exact List.mem_cons_of_mem _ (List.mem_cons_self _ _)
    | false =>
      have heq : grad_handle_tail st0 cid p eg = Res.ok (move_chunk
          (add_overflow (div_resident (after_reduce st0 cid c3) cid) cid)
          cid dev true) eg := by
        unfold grad_handle_tail
        rw [reduce_chunk_fires st0 cid c3 hc3 hall]
        simp only [l2_step_false _ cid _ hc6 hfl]
        rw [grads_device_add_overflow,
          grads_device_div_resident, grads_device_after_reduce, hdev]
        rfl
      have hchunk := chunkAt_updChunk_self
          (add_overflow (div_resident (after_reduce st0 cid c3) cid) cid) cid
          (fun c => { c with device := dev })
      rw [hc6] at hchunk
      refine ⟨_, _, heq, hchunk, rfl, hkg, ?_, ?_, ?_, ?_, ?_, ?_⟩
      · rw [if_pos rfl]
        rfl
      · intro hco
        cases hco
      · intro _
        rfl
      · rw [ovf_move_chunk, ovf_add_overflow _ cid _ hc5,
          ovf_div_resident, ovf_after_reduce]
        rfl
      · rw [trace_move_chunk]
        exact List.mem_cons_self _ _
      · rw [trace_move_chunk, trace_add_overflow _ cid _ hc5,
          trace_div_resident, trace_after_reduce]
        exact List.mem_cons_of_mem _ (List.mem_cons_self _ _)
  | false =>
    have hg : (c3.reduced).is_gathered = false := hkg
    have hc5 := chunkAt_div_resident_f _ cid c3.reduced hc4 hg
    have hc6 := chunkAt_add_overflow _ cid _ hc5
    cases hfl : c3.l2_norm_flag with
    | true =>
      have hc7 := chunkAt_set_l2_norm _ cid _ hc6
      have heq : grad_handle_tail st0 cid p eg = Res.ok (move_chunk (set_l2_norm
          (add_overflow (div_resident (after_reduce st0 cid c3) cid) cid) cid)
          cid dev true) eg := by
        unfold grad_handle_tail
        rw [reduce_chunk_fires st0 cid c3 hc3 hall]
        simp only [l2_step_true _ cid _ hc6 hfl]
        rw [grads_device_set_l2_norm, grads_device_add_overflow,
          grads_device_div_resident, grads_device_after_reduce, hdev]
        rfl
      have hchunk := chunkAt_updChunk_self (set_l2_norm
          (add_overflow (div_resident (after_reduce st0 cid c3) cid) cid) cid) cid
          (fun c => { c with device := dev })
      rw [hc7] at hchunk
      refine ⟨_, _, heq, hchunk, rfl, hkg, ?_, ?_, ?_, ?_, ?_, ?_⟩
      · rw [if_neg (by simp)]
        rfl
      · intro _
        rfl
      · intro hco
        cases hco
      · rw [ovf_move_chunk, ovf_set_l2_norm, ovf_add_overflow _ cid _ hc5,
          ovf_div_resident, ovf_after_reduce]
        rfl
      · rw [trace_move_chunk]
        exact List.mem_cons_self _ _
      · rw [trace_move_chunk, trace_set_l2_norm, trace_add_overflow _ cid _ hc5,
          trace_div_resident, trace_after_reduce]
        exact List.mem_cons_of_mem _ (List.mem_cons_self _ _)
    | false =>
      have heq : grad_handle_tail st0 cid p eg = Res.ok (move_chunk
          (add_overflow (div_resident (after_reduce st0 cid c3) cid) cid)
          cid dev true) eg := by
        unfold grad_handle_tail
        rw [reduce_chunk_fires st0 cid c3 hc3 hall]
        simp only [l2_step_false _ cid _ hc6 hfl]
        rw [grads_device_add_overflow,
          grads_device_div_resident, grads_device_after_reduce, hdev]
        rfl
      have hchunk := chunkAt_updChunk_self
          (add_overflow (div_resident (after_reduce st0 cid c3) cid) cid) cid
          (fun c => { c with device := dev })
      rw [hc6] at hchunk
      refine ⟨_, _, heq, hchunk, rfl, hkg, ?_, ?_, ?_, ?_, ?_, ?_⟩
      · rw [if_neg (by simp)]
        rfl
      · intro hco
        cases hco
      · intro _
        rfl
      · rw [ovf_move_chunk, ovf_add_overflow _ cid _ hc5,
          ovf_div_resident, ovf_after_reduce]
        rfl
      · rw [trace_move_chunk]
        exact List.mem_cons_self _ _
      · rw [trace_move_chunk, trace_add_overflow _ cid _ hc5,
          trace_div_resident, trace_after_reduce]
        exact List.mem_cons_of_mem _ (List.mem_cons_self _ _)

theorem grads_device_trans_tensor_state (st : FSDPState) (p : Nat) (s : TensorState) :
    (trans_tensor_state st p s).grads_device = st.grads_device := by
  unfold trans_tensor_state
  cases get_chunk st.chunk_manager p <;> rfl

theorem grads_device_copy_slice (st : FSDPState) (cid p : Nat) (grad : Tensor) :
    (copy_tensor_to_chunk_slice st cid p grad).grads_device = st.grads_device := rfl

theorem ovf_trans_tensor_state (st : FSDPState) (p : Nat) (s : TensorState) :
    (trans_tensor_state st p s).overflow_counter = st.overflow_counter := by
  unfold trans_tensor_state
  cases get_chunk st.chunk_manager p <;> rfl

theorem ovf_copy_slice (st : FSDPState) (cid p : Nat) (grad : Tensor) :
    (copy_tensor_to_chunk_slice st cid p grad).overflow_counter = st.overflow_counter := rfl

/-- C1 (amended): when the gradient handler fires for a parameter in
HOLD_AFTER_BWD whose chunk siblings are all READY_FOR_REDUCE (so the
chunk reduction actually fires), `grad_handle` divides the resident
buffer — the whole gathered buffer of a keep-gathered chunk, the local
shard slice otherwise — by the worker-group size, adds the chunk
non-finite indicator to the overflow counter, records the l2 norm
exactly when the flag is set, moves the chunk to the configured
gradient device with a forced copy, and returns the placeholder built
by `torch.empty_like`: same shape and dtype as the incoming gradient,
contents uninitialized (the ambient `uninit` fill), not zeroed. -/
theorem grad_handle_reduce_effects
    (st : FSDPState) (p : Nat) (grad : Tensor)
    (cid : Nat) (c : Chunk) (ti : TensorInfo) (dev : Device)
    (h1 : get_chunk st.chunk_manager p = some cid)
    (h2 : chunkAt st cid = some c)
    (h3 : List.lookup p c.tensors_info = some ti)
    (h4 : ti.state = TensorState.HOLD_AFTER_BWD)
    (h5 : List.lookup p st.grads_device = some dev)
    (hfire : ∀ kv ∈ c.tensors_info, kv.1 ≠ p →
      kv.2.state = TensorState.READY_FOR_REDUCE) :
    ∃ stf cf,
      grad_handle st p grad = Res.ok stf (empty_like st grad) ∧
      (empty_like st grad).shape = grad.shape ∧
      (empty_like st grad).dtype = grad.dtype ∧
      (empty_like st grad).data = List.replicate grad.numel st.uninit ∧
      chunkAt stf cid = some cf ∧
      cf.device = dev ∧
      cf.payload = (if c.keep_gathered = true
        then divAll (writeSlice c.payload ti.offset grad.data) c.pg_size
        else divSlice (writeSlice c.payload ti.offset grad.data)
          c.shard_begin c.shard_end c.pg_size) ∧
      (c.l2_norm_flag = true → cf.l2_norm = some (sumSq cf.resident)) ∧
      (c.l2_norm_flag = false → cf.l2_norm = c.l2_norm) ∧
      stf.overflow_counter = st.overflow_counter + (if c.has_inf_or_nan then 1 else 0) ∧
      Event.move_chunk cid dev true ∈ stf.trace ∧
      Event.reduce_fired cid ∈ stf.trace := by
  have hstate : c.stateOf p = some TensorState.HOLD_AFTER_BWD := by
    show (List.lookup p c.tensors_info).map (fun ti => ti.state) = _
    rw [h3]
    show some ti.state = _
    rw [h4]
  have hook : hook_post_backward st p = st := by
    unfold hook_post_backward
    simp only [h1, h2, hstate]
    simp
  have hentry : grad_handle st p grad =
      grad_handle_tail (copy_tensor_to_chunk_slice
        (trans_tensor_state st p TensorState.READY_FOR_REDUCE) cid p grad) cid p
        (empty_like st grad) := by
    unfold grad_handle
    simp only [hook, h1, h2, hstate]
    rw [if_neg (by simp)]
  have hc2 := chunkAt_trans_tensor_state st p TensorState.READY_FOR_REDUCE cid c h1 h2
  have hl := lookup_setState_self c p TensorState.READY_FOR_REDUCE ti h3
  have hc3 := chunkAt_copy (trans_tensor_state st p TensorState.READY_FOR_REDUCE)
    cid p grad _ _ hc2 hl
  have hall : (c.setState p TensorState.READY_FOR_REDUCE).tensors_info.all
      (fun kv => kv.2.state == TensorState.READY_FOR_REDUCE) = true := by
    rw [List.all_eq_true]
    intro kv hkv
    rw [show (c.setState p TensorState.READY_FOR_REDUCE).tensors_info
      = c.tensors_info.map (fun kv => (kv.1,
          if kv.1 == p then { kv.2 with state := TensorState.READY_FOR_REDUCE }
          else kv.2)) from rfl] at hkv
    rw [List.mem_map] at hkv
    obtain ⟨kv0, hkv0, hh⟩ := hkv
    subst hh
    by_cases hp : (kv0.1 == p) = true
    · simp [hp]
    · have hne : kv0.1 ≠ p := by simpa using hp
      have hst := hfire kv0 hkv0 hne
      simp [hp, hst]
  have hdev2 : List.lookup p (copy_tensor_to_chunk_slice
      (trans_tensor_state st p TensorState.READY_FOR_REDUCE) cid p grad).grads_device
      = some dev := by
    rw [grads_device_copy_slice, grads_device_trans_tensor_state, h5]
  obtain ⟨stf, cf, heq, hchunk, hdevc, hgath, hpay, hl2t, hl2f, hovf, hmv, hrd⟩ :=
    grad_handle_tail_fires _ cid p (empty_like st grad) _ dev hc3 hall hdev2
  refine ⟨stf, cf, hentry.trans heq, rfl, rfl, rfl, hchunk, hdevc, ?_, ?_, ?_, ?_, hmv, hrd⟩
  · exact hpay
  · exact hl2t
  · exact hl2f
  · rw [hovf, ovf_copy_slice, ovf_trans_tensor_state]
    rfl

/-- Counterexample to C1 as stated: at the concrete state `stEx`
(uninitialized memory reading 1) the placeholder returned by
`grad_handle` has the right shape and dtype but contents `[1, 1]` —
`torch.empty_like` is uninitialized, not zeroed. -/
theorem grad_handle_placeholder_not_zeroed :
    ∃ stf t, grad_handle stEx 1 gradEx = Res.ok stf t ∧
      t.shape = gradEx.shape ∧ t.dtype = gradEx.dtype ∧
      t.data = [1, 1] ∧ t.data ≠ List.replicate 2 (0 : Rat) := by
  refine ⟨_, _, rfl, by decide, by decide, by decide, by decide⟩

/-- Witness for C1 at the concrete state `stEx`: the reduction fires,
the chunk moves to cuda and the overflow counter increments. -/
theorem grad_handle_reduce_effects_witness :
    ∃ stf cf, grad_handle stEx 1 gradEx = Res.ok stf (empty_like stEx gradEx) ∧
      chunkAt stf 0 = some cf ∧ cf.device = Device.cuda ∧
      stf.overflow_counter = stEx.overflow_counter + 1 := by
  obtain ⟨stf, cf, he, _, _, _, hc, hd, _, _, _, hovf, _, _⟩ :=
    grad_handle_reduce_effects stEx 1 gradEx 0 chunkEx
      { state := TensorState.HOLD_AFTER_BWD, offset := 0, end_off := 2 }
      Device.cuda (by decide) (by decide) (by decide) (by decide) (by decide)
      (by decide)
  exact ⟨stf, cf, he, hc, hd, by rw [hovf]; decide⟩

/-! ### C5: shape mismatches are accumulated, not raised immediately -/

/-- What `load_state_dict` does with the lists the inner call
collected: consolidate the error list (with the strict key headers)
and raise once when it is non-empty. -/
theorem load_state_dict_eq (st st1 : FSDPState) (sd : List (String × Tensor))
    (b : Bool) (m u e : List String)
    (hload : _load_from_state_dict st sd "" true = Res.ok st1 (m, u, e)) :
    load_state_dict st sd b =
      (if (if b && (m ≠ []) then missing_keys_msg m ::
              (if b && (u ≠ []) then unexpected_keys_msg u :: e else e)
            else (if b && (u ≠ []) then unexpected_keys_msg u :: e else e)) ≠ [] then
         Res.err (load_err_msg
           (if b && (m ≠ []) then missing_keys_msg m ::
               (if b && (u ≠ []) then unexpected_keys_msg u :: e else e)
             else (if b && (u ≠ []) then unexpected_keys_msg u :: e else e))) st1
       else Res.ok st1 (m, u)) := by
  simp only [load_state_dict, hload]

/-- C5 (amended): when a checkpoint entry survives the 0-dim/1-dim
backward-compatibility adjustment of source lines 520-521 and its
shape still disagrees with the live shape, the `load` closure appends
exactly one shape-mismatch message — naming the key, the checkpoint
shape and the model shape — to the error list instead of raising,
copies nothing and leaves the missing list alone; and whenever the
error list collected by the inner call is non-empty,
`load_state_dict` raises one consolidated failure carrying the whole
list. -/
theorem load_shape_mismatch_accumulated
    (sd : List (String × Tensor)) (pre name : String) (dest_shape : List Nat)
    (strict : Bool) (missing errors : List String) (input0 : Tensor)
    (st st1 : FSDPState) (m u e : List String) (b : Bool)
    (hkey : List.lookup (pre ++ name) sd = some input0)
    (hadj : ¬(dest_shape.length = 0 ∧ input0.shape.length = 1))
    (hne : input0.shape ≠ dest_shape)
    (hload : _load_from_state_dict st sd "" true = Res.ok st1 (m, u, e))
    (he : e ≠ []) :
    load_entry sd pre name dest_shape strict missing errors =
      (missing, errors ++ [size_mismatch_msg (pre ++ name) input0.shape dest_shape],
       none) ∧
    ∃ hdr, load_state_dict st sd b = Res.err (load_err_msg (hdr ++ e)) st1 := by
  constructor
  · have hb : (dest_shape.length == 0 && input0.shape.length == 1) = false := by
      cases h0 : dest_shape.length == 0 with
      | false => rfl
      | true =>
        cases h1 : input0.shape.length == 1 with
        | false => rfl
        | true => exact absurd ⟨eq_of_beq h0, eq_of_beq h1⟩ hadj
    simp only [load_entry, hkey, hb]
    rw [if_neg Bool.false_ne_true, if_pos hne]
  · rw [load_state_dict_eq st st1 sd b m u e hload]
    have hgen : ∀ (c : Bool) (x : String) (l2 : List String),
        ∃ hh, (if c then x :: l2 else l2) = hh ++ l2 := by
      intro c x l2
      cases c
      · exact ⟨[], rfl⟩
      · exact ⟨[x], rfl⟩
    obtain ⟨h1, he1⟩ := hgen (b && (u ≠ [])) (unexpected_keys_msg u) e
    rw [he1]
    obtain ⟨h2, he2⟩ := hgen (b && (m ≠ [])) (missing_keys_msg m) (h1 ++ e)
    rw [he2]
    rw [if_pos (show h2 ++ (h1 ++ e) ≠ [] from by simp [he])]
    exact ⟨h2 ++ h1, by rw [List.append_assoc]⟩

/-- Counterexample to C5 as stated: the live buffer "s" has shape []
while the checkpoint stores shape [1] — the shapes disagree — yet
`load_state_dict` records no message and raises nothing: the
backward-compatibility branch of source lines 520-521 silently loads
the stored tensor as its first element. -/
theorem load_compat_mismatch_not_reported :
    (∃ bt, List.lookup "s" sdCompat = some bt ∧ bt.shape ≠ bufS.shape) ∧
    ∃ st1, load_state_dict stLoadS sdCompat true = Res.ok st1 ([], []) ∧
      (List.lookup "s" st1.buffers).map Tensor.data = some [7] := by
  refine ⟨⟨{ shape := [1], dtype := Dtype.f32, data := [7] }, rfl, by decide⟩,
    ⟨{ stLoadS with buffers :=
        [("s", { shape := [], dtype := Dtype.f32, data := [7] }), ("s", bufS)] },
      rfl, rfl⟩⟩

/-- Witness for C5 at a concrete input with exactly one mismatching
key: exactly one shape-mismatch message for "b", surfaced by the
single consolidated failure. -/
theorem load_shape_mismatch_accumulated_witness :
    load_entry sdMismatch "" "b" [2, 2] true [] [] =
      ([], [size_mismatch_msg "b" [4] [2, 2]], none) ∧
    ∃ hdr, load_state_dict stLoadB sdMismatch true =
      Res.err (load_err_msg (hdr ++ [size_mismatch_msg "b" [4] [2, 2]])) stLoadB := by
  have h := load_shape_mismatch_accumulated sdMismatch "" "b" [2, 2] true [] []
      { shape := [4], dtype := Dtype.f32, data := [1, 2, 3, 4] }
      stLoadB stLoadB [] [] [size_mismatch_msg "b" [4] [2, 2]] true
      (by decide) (by decide) (by decide) rfl (by decide)
  exact ⟨h.1, h.2⟩

/-! ### C6: missing and unexpected keys are always collected -/

/-- C6 (amended): `load_state_dict` always runs the inner call with
the collection flag hardcoded to True (source line 423), so the
missing and unexpected key lists are collected whatever `strict` was
passed; with strict=False they are returned as the result, and under
strict mode a non-empty missing or unexpected list causes one single
aggregated failure whose message lists both sets, missing keys
first. -/
theorem load_state_dict_key_reports (st st1 : FSDPState)
    (sd : List (String × Tensor)) (m u e : List String)
    (hload : _load_from_state_dict st sd "" true = Res.ok st1 (m, u, e)) :
    (load_state_dict st sd false =
      (if e ≠ [] then Res.err (load_err_msg e) st1 else Res.ok st1 (m, u))) ∧
    (m ≠ [] ∨ u ≠ [] →
      load_state_dict st sd true =
        Res.err (load_err_msg
          ((if m ≠ [] then [missing_keys_msg m] else []) ++
           (if u ≠ [] then [unexpected_keys_msg u] else []) ++ e)) st1) := by
  constructor
  · rw [load_state_dict_eq st st1 sd false m u e hload]
    rfl
  · intro hmu
    rw [load_state_dict_eq st st1 sd true m u e hload]
    by_cases hm : m = [] <;> by_cases hu : u = []
    · cases hmu with
      | inl h => exact absurd hm h
      | inr h => exact absurd hu h
    · simp [hm, hu]
    · simp [hm, hu]
    · simp [hm, hu]

/-- Counterexample to C6 as stated: with strict validation NOT
requested (strict=False) the unexpected-keys list still comes back
populated — the key lists are not collected "only when strict
validation is requested", because the inner call hardcodes the flag
to True. -/
theorem load_nonstrict_still_collects :
    ∃ st1, load_state_dict stLoadB sdJunkOk false = Res.ok st1 ([], ["junk"]) := by
  refine ⟨{ stLoadB with buffers :=
      [("b", { bufB with data := [1, 2, 3, 4] }), ("b", bufB)] }, rfl⟩

/-- Witness for C6 on a checkpoint with one missing and one unexpected
key: strict=False returns both lists, strict=True raises the single
aggregated failure, missing keys first. -/
theorem load_state_dict_key_reports_witness :
    load_state_dict stLoadB sdJunk false = Res.ok stLoadB (["b"], ["junk"]) ∧
    load_state_dict stLoadB sdJunk true =
      Res.err (load_err_msg [missing_keys_msg ["b"], unexpected_keys_msg ["junk"]])
        stLoadB := by
  have h := load_state_dict_key_reports stLoadB stLoadB sdJunk ["b"] ["junk"] [] rfl
  constructor
  · rw [h.1]
    rfl
  · have h2 := h.2 (Or.inl (by decide))
    rw [h2]
    rfl

/-! ### C7: master-to-compute propagation after a load -/

theorem trace_optim_update (st : FSDPState) (k : Nat) :
    (optim_update st k).trace = Event.optim_update k :: st.trace := rfl

theorem chunkAt_optim_update_ne (st : FSDPState) (k cid : Nat) (h : cid ≠ k) :
    chunkAt (optim_update st k) cid = chunkAt st cid := by
  unfold optim_update
  rw [chunkAt_logE, chunkAt_updChunk_ne st k cid _ h]

theorem chunkAt_optim_update_self (st : FSDPState) (k mid : Nat) (c16 mc : Chunk)
    (hc : chunkAt st k = some c16) (hp : c16.paired_chunk = some mid)
    (hm : chunkAt st mid = some mc) :
    chunkAt (optim_update st k) k = some { c16 with payload := mc.payload } := by
  unfold optim_update
  rw [chunkAt_logE, chunkAt_updChunk_self, hc]
  simp [hp, hm]

/-- `optim_update` never changes which chunks exist nor their pairing
links. -/
theorem paired_chunkAt_optim_update (st : FSDPState) (k cid : Nat) :
    (chunkAt (optim_update st k) cid).map Chunk.paired_chunk =
      (chunkAt st cid).map Chunk.paired_chunk := by
  by_cases h : cid = k
  · subst h
    unfold optim_update
    rw [chunkAt_logE, chunkAt_updChunk_self]
    cases hc : chunkAt st cid with
    | none => rfl
    | some c =>
      cases hp : c.paired_chunk with
      | none => simp [hp]
      | some mid =>
        cases hm : chunkAt st mid with
        | none => simp [hp, hm]
        | some mc => simp [hp, hm]
  · rw [chunkAt_optim_update_ne st k cid h]

/-- Events already in the trace survive the pairing loop. -/
theorem pairs_trace_mono (l : List Nat) (st stf : FSDPState)
    (h : pairs_loop st l = Res.ok stf ()) :
    ∀ ev ∈ st.trace, ev ∈ stf.trace := by
  induction l generalizing st with
  | nil =>
    simp only [pairs_loop] at h
    injection h with h1 _
    subst h1
    exact fun ev hev => hev
  | cons cid rest ih =>
    intro ev hev
    simp only [pairs_loop] at h
    split at h
    · exact ih st h ev hev
    · rename_i c hc
      split at h
      · cases h
      · rename_i cid16 hp
        exact ih (optim_update st cid16) h ev
          (by rw [trace_optim_update]; exact List.mem_cons_of_mem _ hev)

/-- A chunk no remaining iteration updates is left alone by the
pairing loop. -/
theorem pairs_loop_frame (l : List Nat) (st stf : FSDPState) (K : Nat)
    (h : pairs_loop st l = Res.ok stf ())
    (hK : ∀ cid ∈ l, ∀ c k, chunkAt st cid = some c →
        c.paired_chunk = some k → k ≠ K) :
    chunkAt stf K = chunkAt st K := by
  induction l generalizing st with
  | nil =>
    simp only [pairs_loop] at h
    injection h with h1 _
    subst h1
    rfl
  | cons cid rest ih =>
    simp only [pairs_loop] at h
    split at h
    · exact ih st h (fun cid2 h2 c k hck hpk =>
        hK cid2 (List.mem_cons_of_mem _ h2) c k hck hpk)
    · rename_i c hc
      split at h
      · cases h
      · rename_i k0 hp
        have hne : k0 ≠ K := hK cid (List.mem_cons_self cid rest) c k0 hc hp
        have htr : ∀ cid2 ∈ rest, ∀ c2 k2,
            chunkAt (optim_update st k0) cid2 = some c2 →
            c2.paired_chunk = some k2 → k2 ≠ K := by
          intro cid2 h2 c2 k2 hc2 hp2
          have hmap := paired_chunkAt_optim_update st k0 cid2
          rw [hc2] at hmap
          obtain ⟨c0, hc0, hpc0⟩ := Option.map_eq_some'.mp hmap.symm
          exact hK cid2 (List.mem_cons_of_mem _ h2) c0 k2 hc0 (hpc0.trans hp2)
        rw [ih (optim_update st k0) h htr,
          chunkAt_optim_update_ne st k0 K hne.symm]

/-- C7: when the pairing loop at the end of `_load_from_state_dict`
returns (the list holding distinct master chunks, pairing one-to-one
and never pointing back into the list), every listed master chunk had
`optim_update` triggered on its paired compute chunk, and every
compute chunk mutually paired with a listed master chunk ends the loop
holding the master chunk's (just loaded) payload. -/
theorem load_pairs_propagation (l : List Nat) (st stf : FSDPState)
    (h : pairs_loop st l = Res.ok stf ())
    (hnodup : l.Nodup)
    (hinj : ∀ cid ∈ l, ∀ cid2 ∈ l, ∀ (c c2 : Chunk) (k k2 : Nat),
        chunkAt st cid = some c → chunkAt st cid2 = some c2 →
        c.paired_chunk = some k → c2.paired_chunk = some k2 →
        k = k2 → cid = cid2)
    (hdisj : ∀ cid ∈ l, ∀ (c : Chunk) (k : Nat), chunkAt st cid = some c →
        c.paired_chunk = some k → k ∉ l) :
    ∀ cid ∈ l, ∀ c, chunkAt st cid = some c →
      ∀ k, c.paired_chunk = some k →
      ∀ c16, chunkAt st k = some c16 → c16.paired_chunk = some cid →
      Event.optim_update k ∈ stf.trace ∧
      ∃ cf, chunkAt stf k = some cf ∧ cf.payload = c.payload := by
  induction l generalizing st with
  | nil =>
    intro cid hmem
    exact absurd hmem (List.not_mem_nil cid)
  | cons cid0 rest ih =>
    obtain ⟨hn0, hnr⟩ := List.nodup_cons.mp hnodup
    intro cid hmem c hc k hp c16 hc16 hp16
    simp only [pairs_loop] at h
    split at h
    · rename_i hc0none
      rcases List.mem_cons.mp hmem with heq | hmemr
      · subst heq
        rw [hc0none] at hc
        cases hc
      · exact ih st h hnr
          (fun a ha a2 ha2 cc cc2 kk kk2 h1 h2 h3 h4 h5 =>
            hinj a (List.mem_cons_of_mem _ ha) a2 (List.mem_cons_of_mem _ ha2)
              cc cc2 kk kk2 h1 h2 h3 h4 h5)
          (fun a ha cc kk h1 h2 hk =>
            hdisj a (List.mem_cons_of_mem _ ha) cc kk h1 h2
              (List.mem_cons_of_mem _ hk))
          cid hmemr c hc k hp c16 hc16 hp16
    · rename_i c0 hc0
      split at h
      · cases h
      · rename_i k0 hp0
        have hk0l : k0 ∉ cid0 :: rest :=
          hdisj cid0 (List.mem_cons_self _ _) c0 k0 hc0 hp0
        have hk0r : k0 ∉ rest := fun hh => hk0l (List.mem_cons_of_mem _ hh)
        rcases List.mem_cons.mp hmem with heq | hmemr
        · subst heq
          rw [hc0] at hc
          injection hc with hcc
          subst hcc
          rw [hp0] at hp
          injection hp with hkk
          subst hkk
          constructor
          · exact pairs_trace_mono rest (optim_update st k0) stf h
              (Event.optim_update k0)
              (by rw [trace_optim_update]; exact List.mem_cons_self _ _)
          · have hframe : chunkAt stf k0 = chunkAt (optim_update st k0) k0 := by
              apply pairs_loop_frame rest (optim_update st k0) stf k0 h
              intro cid2 h2 c2 k2 hc2 hp2 hk2
              have hmap := paired_chunkAt_optim_update st k0 cid2
              rw [hc2] at hmap
              obtain ⟨cb, hcb, hpb⟩ := Option.map_eq_some'.mp hmap.symm
              have hpbk : cb.paired_chunk = some k0 := by
                rw [hpb, hp2, hk2]
              have heq2 : cid2 = cid :=
                hinj cid2 (List.mem_cons_of_mem _ h2) cid (List.mem_cons_self _ _)
                  cb c0 k0 k0 hcb hc0 hpbk hp0 rfl
              exact hn0 (heq2 ▸ h2)
            rw [hframe, chunkAt_optim_update_self st k0 cid c16 c0 hc16 hp16 hc0]
            exact ⟨_, rfl, rfl⟩
        · have hcidne : cid ≠ k0 := fun hh => hk0r (hh ▸ hmemr)
          have hkne : k ≠ k0 := by
            intro hh
            have heq0 : cid = cid0 :=
              hinj cid (List.mem_cons_of_mem _ hmemr) cid0 (List.mem_cons_self _ _)
                c c0 k k0 hc hc0 hp hp0 hh
            exact hn0 (heq0 ▸ hmemr)
          have hc2 : chunkAt (optim_update st k0) cid = some c := by
            rw [chunkAt_optim_update_ne st k0 cid hcidne]
            exact hc
          have hc16b : chunkAt (optim_update st k0) k = some c16 := by
            rw [chunkAt_optim_update_ne st k0 k hkne]
            exact hc16
          have hinjr : ∀ a ∈ rest, ∀ a2 ∈ rest, ∀ (cc cc2 : Chunk) (kk kk2 : Nat),
              chunkAt (optim_update st k0) a = some cc →
              chunkAt (optim_update st k0) a2 = some cc2 →
              cc.paired_chunk = some kk → cc2.paired_chunk = some kk2 →
              kk = kk2 → a = a2 := by
            intro a ha a2 ha2 cc cc2 kk kk2 h1 h2 h3 h4 h5
            rw [chunkAt_optim_update_ne st k0 a (fun hh => hk0r (hh ▸ ha))] at h1
            rw [chunkAt_optim_update_ne st k0 a2 (fun hh => hk0r (hh ▸ ha2))] at h2
            exact hinj a (List.mem_cons_of_mem _ ha) a2 (List.mem_cons_of_mem _ ha2)
              cc cc2 kk kk2 h1 h2 h3 h4 h5
          have hdisjr : ∀ a ∈ rest, ∀ (cc : Chunk) (kk : Nat),
              chunkAt (optim_update st k0) a = some cc →
              cc.paired_chunk = some kk → kk ∉ rest := by
            intro a ha cc kk h1 h2 hk
            rw [chunkAt_optim_update_ne st k0 a (fun hh => hk0r (hh ▸ ha))] at h1
            exact hdisj a (List.mem_cons_of_mem _ ha) cc kk h1 h2
              (List.mem_cons_of_mem _ hk)
          exact ih (optim_update st k0) h hnr hinjr hdisjr
            cid hmemr c hc2 k hp c16 hc16b hp16

/-- Witness for C7 on the concrete master/compute pair: the loop fires
`optim_update` on compute chunk 1 and its payload becomes the master
payload. -/
theorem load_pairs_propagation_witness :
    ∃ stf, pairs_loop stPair [0] = Res.ok stf () ∧
      Event.optim_update 1 ∈ stf.trace ∧
      ∃ cf, chunkAt stf 1 = some cf ∧ cf.payload = chunkM.payload := by
  have hinj : ∀ cid ∈ [0], ∀ cid2 ∈ [0], ∀ (c c2 : Chunk) (k k2 : Nat),
      chunkAt stPair cid = some c → chunkAt stPair cid2 = some c2 →
      c.paired_chunk = some k → c2.paired_chunk = some k2 →
      k = k2 → cid = cid2 := by
    intro cid h1 cid2 h2 _ _ _ _ _ _ _ _ _
    simp only [List.mem_singleton] at h1 h2
    rw [h1, h2]
  have hdisj : ∀ cid ∈ [0], ∀ (c : Chunk) (k : Nat),
      chunkAt stPair cid = some c → c.paired_chunk = some k → k ∉ [0] := by
    intro cid h1 c k hc hp
    simp only [List.mem_singleton] at h1
    subst h1
    have hc2 : some chunkM = some c := hc
    injection hc2 with hcm
    subst hcm
    have hp2 : some 1 = some k := hp
    injection hp2 with hk
    subst hk
    decide
  have h := load_pairs_propagation [0] stPair _ rfl (by decide) hinj hdisj
      0 (by decide) chunkM rfl 1 rfl chunkC rfl rfl
  exact ⟨_, rfl, h.1, h.2⟩
